import Mathlib

/-!
# Verification of the `stardust` serialization framework

A shallow embedding of `src/stardust/serializer.py`: the `Serializable`
value codec (`Serializable.serialize` / `Serializable.deserialize`), the
class registry, the `__init_subclass__` state-field merging, and the
`Packable` manifest pack/unpack protocol, together with proofs about the
properties claimed of them.

Python values are modelled by the inductive type `PyVal`; Python `datetime`
objects by `PyDateTime` (wall-clock fields plus an optional fixed UTC offset
in minutes, which is how `datetime.timezone` offsets behave); numpy arrays by
`NDArray` (shape, dtype string, row-major flat data, restricted to integer
dtypes).  Standard-library collaborators (`datetime.isoformat`,
`datetime.fromisoformat`, `datetime.astimezone`, `str.replace`, `np.array`,
`np.reshape`) are modelled by executable Lean functions faithful to their
documented behaviour on the inputs this codec produces; `fromisoformat`'s
field-range validation is modelled leniently (fields are parsed up to their
delimiters), which agrees with CPython on every string the encoder can emit.

The decoder threads a warning counter (the module prints its unknown-type
warning with `print`) and models Python exceptions with `Except String`.
Recursive walks over `PyVal` that descend through dictionary lookups are
written fuel-indexed (structurally on the fuel) so that they compute by
`rfl`; the public wrappers supply `sizeOf` of the argument as fuel, which
the soundness lemmas show is always enough.
-/

/-- Python `datetime.datetime`: proleptic-Gregorian wall-clock fields plus an
optional fixed UTC offset in minutes (`None` tzinfo = naive). -/
structure PyDateTime where
  year : Nat
  month : Nat
  day : Nat
  hour : Nat
  minute : Nat
  second : Nat
  microsecond : Nat
  /-- `self.utcoffset()` in minutes; `Option.none` models a naive datetime. -/
  utcOffsetMinutes : Option Int
  deriving DecidableEq, Repr

/-- A numpy integer array: shape, dtype name (`str(arr.dtype)`), and the
row-major flat element list. -/
structure NDArray where
  shape : List Nat
  dtype : String
  flat : List Int
  deriving DecidableEq, Repr

/-- The Python values the serializer operates on: JSON-native primitives
(including floats, carried as their IEEE-754 bit pattern — the codec only
passes them through, never computes with them), containers, timestamps and
dense integer arrays.  Dictionary keys are strings (the JSON-safe case);
insertion order is the list order. -/
inductive PyVal where
  | none
  | bool (b : Bool)
  | int (n : Int)
  | float (bits : Nat)
  | str (s : String)
  | list (xs : List PyVal)
  | tuple (xs : List PyVal)
  | dict (kvs : List (String × PyVal))
  | set (xs : List PyVal)
  | datetime (dt : PyDateTime)
  | ndarray (a : NDArray)
  deriving Repr

/-- `d.get(k)` / `d[k]` on a Python dict modelled as an association list
(first binding wins; encoder output has unique keys). -/
def lookupKV (k : String) : List (String × PyVal) → Option PyVal
  | [] => Option.none
  | (k', v) :: r => if k' = k then Option.some v else lookupKV k r

/-- Is this IEEE-754 double bit pattern a NaN (exponent all ones, nonzero
mantissa)?  Python's `==` on floats with identical bit patterns is true
except for NaN, which never equals anything. -/
def isNaNBits (bits : Nat) : Bool :=
  bits / 4503599627370496 % 2048 == 2047 && bits % 4503599627370496 != 0

/-! ## Decimal digit strings

`datetime.isoformat` renders fields as zero-padded decimal numbers and
`datetime.fromisoformat` reads them back; we model the digit rendering with
`natChars`/`padChars` and reading with `parseDigits`. -/

/-- The character for a single decimal digit value. -/
def digitChar10 (d : Nat) : Char := Char.ofNat (48 + d)

/-- Big-endian decimal digit characters of `n` (at least one digit). -/
def natChars (n : Nat) : List Char :=
  if n = 0 then ['0'] else ((Nat.digits 10 n).reverse).map digitChar10

/-- `natChars` left-padded with zeros to (at least) width `w`, modelling the
`%0wd`-style rendering `isoformat` uses for each field. -/
def padChars (w n : Nat) : List Char :=
  List.replicate (w - (natChars n).length) '0' ++ natChars n

/-- Numeric value of a big-endian digit-character string. -/
def parseDigits (cs : List Char) : Nat :=
  cs.foldl (fun a c => a * 10 + (c.toNat - 48)) 0

/-- ASCII decimal digit test (delimiters of the ISO format are non-digits). -/
def isDigitCh (c : Char) : Bool := 48 ≤ c.toNat && c.toNat ≤ 57

/-! ## Proleptic-Gregorian calendar arithmetic

Used to model `datetime.astimezone(timezone.utc)`, which converts wall-clock
fields to an instant, shifts by the UTC offset, and converts back.  (The
round-trip theorems never depend on the internals of these conversions: an
already-UTC datetime is returned unchanged, exactly as CPython's
`astimezone` returns `self` when `tzinfo` is already the target zone.) -/

/-- Days from civil date (proleptic Gregorian, days since 1970-01-01). -/
def daysFromCivil (y m d : Int) : Int :=
  let y' := y - (if m ≤ 2 then 1 else 0)
  let era := (if 0 ≤ y' then y' else y' - 399).fdiv 400
  let yoe := y' - era * 400
  let mp := (m + 9).fmod 12
  let doy := (153 * mp + 2).fdiv 5 + d - 1
  let doe := yoe * 365 + yoe.fdiv 4 - yoe.fdiv 100 + doy
  era * 146097 + doe - 719468

/-- Civil date from day number (inverse direction of `daysFromCivil`). -/
def civilFromDays (z0 : Int) : Int × Int × Int :=
  let z := z0 + 719468
  let era := (if 0 ≤ z then z else z - 146096).fdiv 146097
  let doe := z - era * 146097
  let yoe := (doe - doe.fdiv 1460 + doe.fdiv 36524 - doe.fdiv 146096).fdiv 365
  let y := yoe + era * 400
  let doy := doe - (365 * yoe + yoe.fdiv 4 - yoe.fdiv 100)
  let mp := (5 * doy + 2).fdiv 153
  let d := doy - (153 * mp + 2).fdiv 5 + 1
  let m := mp + (if mp < 10 then 3 else -9)
  (y + (if m ≤ 2 then 1 else 0), m, d)

/-- Microseconds since the epoch of the wall-clock fields of `dt`
(ignoring its offset). -/
def wallMicros (dt : PyDateTime) : Int :=
  (daysFromCivil dt.year dt.month dt.day) * 86400000000
    + dt.hour * 3600000000 + dt.minute * 60000000 + dt.second * 1000000
    + dt.microsecond

/-- The UTC datetime whose instant is `micros` microseconds since the epoch. -/
def utcOfMicros (micros : Int) : PyDateTime :=
  let days := micros.fdiv 86400000000
  let tod := (micros.fmod 86400000000).toNat
  let c := civilFromDays days
  { year := c.1.toNat, month := c.2.1.toNat, day := c.2.2.toNat
    hour := tod / 3600000000
    minute := tod % 3600000000 / 60000000
    second := tod % 60000000 / 1000000
    microsecond := tod % 1000000
    utcOffsetMinutes := Option.some 0 }

/-- `dt.astimezone(timezone.utc)`.  CPython returns `self` when `tzinfo`
is already `timezone.utc`; otherwise it shifts the instant by the UTC
offset.  (On a naive datetime `astimezone` interprets the fields as local
time; the encoder only calls it on aware datetimes, so the naive case is
modelled as the identity.) -/
def astimezoneUTC (dt : PyDateTime) : PyDateTime :=
  match dt.utcOffsetMinutes with
  | Option.none => dt
  | Option.some o =>
    if o = 0 then { dt with utcOffsetMinutes := Option.some 0 }
    else utcOfMicros (wallMicros dt - o * 60000000)

/-! ## `datetime.isoformat(timespec="microseconds")` and `fromisoformat` -/

/-- The date-time body `YYYY-MM-DDTHH:MM:SS.ffffff` of `isoformat`
(year padded to 4 digits, other fields to 2, microseconds to 6). -/
def isoBodyChars (dt : PyDateTime) : List Char :=
  padChars 4 dt.year ++ '-' :: padChars 2 dt.month ++ '-' :: padChars 2 dt.day
    ++ 'T' :: padChars 2 dt.hour ++ ':' :: padChars 2 dt.minute
    ++ ':' :: padChars 2 dt.second ++ '.' :: padChars 6 dt.microsecond

/-- The `±HH:MM` offset suffix `isoformat` appends for an aware datetime
with UTC offset `o` minutes. -/
def isoOffsetChars (o : Int) : List Char :=
  (if o < 0 then '-' else '+') :: padChars 2 (o.natAbs / 60)
    ++ ':' :: padChars 2 (o.natAbs % 60)

/-- `dt.isoformat(timespec="microseconds")`. -/
def isoChars (dt : PyDateTime) : List Char :=
  match dt.utcOffsetMinutes with
  | Option.none => isoBodyChars dt
  | Option.some o => isoBodyChars dt ++ isoOffsetChars o

/-- `s.replace("+00:00", "Z")` (every occurrence, left to right). -/
def replacePlus0000 (cs : List Char) : List Char :=
  match cs with
  | '+' :: '0' :: '0' :: ':' :: '0' :: '0' :: rest => 'Z' :: replacePlus0000 rest
  | c :: rest => c :: replacePlus0000 rest
  | [] => []

/-- `s.replace("Z", "+00:00")` (every occurrence). -/
def replaceZ (cs : List Char) : List Char :=
  match cs with
  | 'Z' :: rest => '+' :: '0' :: '0' :: ':' :: '0' :: '0' :: replaceZ rest
  | c :: rest => c :: replaceZ rest
  | [] => []

/-- `s.endswith("Z")`. -/
def endsWithZ (cs : List Char) : Bool :=
  match cs.getLast? with
  | Option.some c => c = 'Z'
  | Option.none => false

/-- Leading run of decimal digits and the rest. -/
def takeDigits (cs : List Char) : List Char × List Char :=
  (cs.takeWhile isDigitCh, cs.dropWhile isDigitCh)

/-- Parse `±HH:MM` into a UTC offset in minutes. -/
def parseIsoOffset (cs : List Char) : Option Int :=
  match cs with
  | sgn :: rest =>
    if sgn = '+' ∨ sgn = '-' then
      let (hh, r1) := takeDigits rest
      match r1 with
      | ':' :: r2 =>
        let (mm, r3) := takeDigits r2
        if hh = [] ∨ mm = [] ∨ r3 ≠ [] then Option.none
        else
          let v : Int := parseDigits hh * 60 + parseDigits mm
          Option.some (if sgn = '-' then -v else v)
      | _ => Option.none
    else Option.none
  | [] => Option.none

/-- Read one numeric field up to (and consuming) the given delimiter. -/
def readField (delim : Char) (cs : List Char) : Option (Nat × List Char) :=
  let (ds, r) := takeDigits cs
  match ds, r with
  | _ :: _, c :: rest => if c = delim then Option.some (parseDigits ds, rest) else Option.none
  | _, _ => Option.none

/-- `datetime.fromisoformat` on the strings this codec produces: fixed
delimiters, microsecond field, optional `±HH:MM` suffix.  Field values are
read up to their delimiters (range validation is modelled leniently, which
agrees with CPython on every string `isoformat` emits). -/
def parseIso (cs : List Char) : Option PyDateTime := do
  let (y, r1) ← readField '-' cs
  let (mo, r2) ← readField '-' r1
  let (da, r3) ← readField 'T' r2
  let (hh, r4) ← readField ':' r3
  let (mi, r5) ← readField ':' r4
  let (se, r6) ← readField '.' r5
  let (us, r7) := takeDigits r6
  match us with
  | [] => Option.none
  | _ :: _ =>
    let base : PyDateTime :=
      { year := y, month := mo, day := da, hour := hh, minute := mi, second := se
        microsecond := parseDigits us, utcOffsetMinutes := Option.none }
    match r7 with
    | [] => Option.some base
    | _ :: _ =>
      match parseIsoOffset r7 with
      | Option.some o => Option.some { base with utcOffsetMinutes := Option.some o }
      | Option.none => Option.none

/-! ## Encoding (`Serializable.serialize`)

The registered-class branch (`SERIALIZABLE_CLASS_REGISTRY.get(type(obj).__name__)`)
is modelled for the values `PyVal` covers: their runtime type names
(`NoneType`, `bool`, `int`, `str`, `list`, `tuple`, `dict`, `set`,
`datetime`, `ndarray`) are never registered class names — registration
happens only through `Serializable.__init_subclass__` — so the lookup
misses and the branch is not taken.  The numpy-scalar branch
(`np.generic` unwrapped with `.item()`) has no counterpart because `PyVal`
carries no boxed-scalar constructor. -/

/-- `Serializable.serialize._encode_datetime`. -/
def encodeDatetime (dt : PyDateTime) : PyVal :=
  match dt.utcOffsetMinutes with
  | Option.none =>
    .dict [("__type__", .str "__datetime__"),
           ("data", .str (String.mk (isoChars dt))),
           ("naive", .bool true)]
  | Option.some _ =>
    let aware := astimezoneUTC dt
    .dict [("__type__", .str "__datetime__"),
           ("data", .str (String.mk (replacePlus0000 (isoChars aware)))),
           ("naive", .bool false)]

/-- `arr.tolist()`: nested lists following the shape (a bare scalar for a
0-d array). -/
def ndToList : List Nat → List Int → PyVal
  | [], flat => .int (flat.headD 0)
  | n :: rest, flat =>
    .list ((List.range n).map fun i =>
      ndToList rest ((flat.drop (i * rest.prod)).take rest.prod))

/-- `Serializable.serialize._encode_ndarray`. -/
def encodeNdarray (a : NDArray) : PyVal :=
  .dict [("__type__", .str "__ndarray__"),
         ("shape", .list (a.shape.map fun n => .int (Int.ofNat n))),
         ("dtype", .str a.dtype),
         ("data", ndToList a.shape a.flat)]

mutual

/-- `Serializable.serialize`: recursive encoding of a value into the
JSON-safe tagged tree. -/
def serialize : PyVal → PyVal
  | .none => .none
  | .bool b => .bool b
  | .int n => .int n
  | .float bits => .float bits
  | .str s => .str s
  | .datetime dt => encodeDatetime dt
  | .ndarray a => encodeNdarray a
  | .dict kvs => .dict (serializeKVs kvs)
  | .list xs => .list (serializeList xs)
  | .tuple xs => .list (serializeList xs)
  | .set xs => .dict [("__type__", .str "__set__"), ("data", .list (serializeList xs))]

/-- Elementwise encoding of a list/tuple body. -/
def serializeList : List PyVal → List PyVal
  | [] => []
  | x :: xs => serialize x :: serializeList xs

/-- Valuewise encoding of a dict body (keys preserved). -/
def serializeKVs : List (String × PyVal) → List (String × PyVal)
  | [] => []
  | (k, v) :: r => (k, serialize v) :: serializeKVs r

end


/-! ## Decoding helpers -/

/-- Python truthiness of a value (used for `if obj.get("naive")`). -/
def truthy : PyVal → Bool
  | .none => false
  | .bool b => b
  | .int n => n ≠ 0
  | .float bits => !(bits == 0 || bits == 9223372036854775808)
  | .str s => s ≠ ""
  | .list xs => !xs.isEmpty
  | .tuple xs => !xs.isEmpty
  | .dict kvs => !kvs.isEmpty
  | .set xs => !xs.isEmpty
  | .datetime _ => true
  | .ndarray a => a.flat.any (· ≠ 0)

/-- `int(v)` on the values that can appear as a version tag; anything else
raises (`TypeError`/`ValueError`).  (`int()` of a float truncates in
Python; float-valued version tags are outside this model, which never
computes with float payloads.) -/
def pyToInt : PyVal → Except String Int
  | .int n => .ok n
  | .bool b => .ok (if b then 1 else 0)
  | .str s =>
    match s.toInt? with
    | Option.some n => .ok n
    | Option.none => .error "ValueError: invalid literal for int"
  | _ => .error "TypeError: int() argument"

mutual

/-- Python hashability of a value (set members must be hashable; a decoded
set member that is a list raises `TypeError`). -/
def hashable : PyVal → Bool
  | .none => true
  | .bool _ => true
  | .int _ => true
  | .float _ => true
  | .str _ => true
  | .datetime _ => true
  | .tuple xs => hashableList xs
  | .list _ => false
  | .dict _ => false
  | .set _ => false
  | .ndarray _ => false

/-- All members hashable. -/
def hashableList : List PyVal → Bool
  | [] => true
  | x :: xs => hashable x && hashableList xs

end

/-- `valid_serialized_object`: all three envelope keys are present. -/
def valid_serialized_object (kvs : List (String × PyVal)) : Bool :=
  (lookupKV "__type__" kvs).isSome && (lookupKV "cls_serializer_version" kvs).isSome
    && (lookupKV "state_data" kvs).isSome

/-- `str(arr.dtype)` values accepted by the model (integer dtypes). -/
def validDtype (s : String) : Bool :=
  s = "int8" ∨ s = "int16" ∨ s = "int32" ∨ s = "int64"
    ∨ s = "uint8" ∨ s = "uint16" ∨ s = "uint32" ∨ s = "uint64"

/-- Value range of an integer dtype (used only in well-formedness
hypotheses: `np.array(..., dtype)` is modelled exactly for in-range data). -/
def dtypeRange (s : String) : Int × Int :=
  if s = "int8" then (-128, 127)
  else if s = "int16" then (-32768, 32767)
  else if s = "int32" then (-2147483648, 2147483647)
  else if s = "int64" then (-9223372036854775808, 9223372036854775807)
  else if s = "uint8" then (0, 255)
  else if s = "uint16" then (0, 65535)
  else if s = "uint32" then (0, 4294967295)
  else (0, 18446744073709551615)

mutual

/-- `np.array(data)` on nested lists of integers (booleans cast): infers the
shape and collects the row-major data, failing on ragged or non-numeric
input.  (Float elements, which an integer dtype would truncate, are outside
this model.) -/
def inferNd : PyVal → Option (List Nat × List Int)
  | .int n => Option.some ([], [n])
  | .bool b => Option.some ([], [if b then 1 else 0])
  | .list xs =>
    match inferNdRows xs with
    | Option.some (shape, rows) => Option.some (xs.length :: shape, rows)
    | Option.none => Option.none
  | _ => Option.none

/-- Rows of a nested array literal: all rows must share one shape.
An empty list of rows yields shape `[]` for the tail (`np.array([])` has
shape `(0,)`). -/
def inferNdRows : List PyVal → Option (List Nat × List Int)
  | [] => Option.some ([], [])
  | x :: xs =>
    match inferNd x, inferNdRows xs with
    | Option.some (s, f), Option.some (s', f') =>
      if xs.isEmpty || s == s' then Option.some (s, f ++ f') else Option.none
    | _, _ => Option.none

end

/-- Extract a list of nonnegative machine integers (for `tuple(obj["shape"])`
fed to `reshape`). -/
def natsOf : List PyVal → Option (List Nat)
  | [] => Option.some []
  | .int n :: r =>
    if 0 ≤ n then (natsOf r).map (fun l => n.toNat :: l) else Option.none
  | _ :: _ => Option.none

/-- `Serializable.deserialize._decode_datetime` applied to the tagged node:
read `obj["data"]`, turn a trailing `Z` into `+00:00`, parse, and drop the
tzinfo again if the node is marked naive. -/
def decodeDatetime (kvs : List (String × PyVal)) : Except String PyVal :=
  match lookupKV "data" kvs with
  | Option.none => .error "KeyError: data"
  | Option.some v =>
    match v with
    | .str s =>
      let cs := s.toList
      let cs := if endsWithZ cs then replaceZ cs else cs
      match parseIso cs with
      | Option.none => .error "ValueError: invalid isoformat string"
      | Option.some dt =>
        if truthy ((lookupKV "naive" kvs).getD .none)
        then .ok (.datetime { dt with utcOffsetMinutes := Option.none })
        else .ok (.datetime dt)
    | _ => .error "TypeError: argument must be str"

/-- `Serializable.deserialize._decode_ndarray` applied to the tagged node
(numpy is imported unconditionally by the module, so the `np is None`
fallback is dead code): `np.array(obj["data"], dtype=obj["dtype"])`
followed by `reshape(tuple(obj["shape"]))`. -/
def decodeNdarray (kvs : List (String × PyVal)) : Except String PyVal :=
  match lookupKV "data" kvs with
  | Option.none => .error "KeyError: data"
  | Option.some dataV =>
    match lookupKV "dtype" kvs with
    | Option.none => .error "KeyError: dtype"
    | Option.some (.str dt) =>
      if validDtype dt then
        match inferNd dataV with
        | Option.none => .error "ValueError: array data"
        | Option.some (_, flat) =>
          match lookupKV "shape" kvs with
          | Option.none => .error "KeyError: shape"
          | Option.some (.list sh) =>
            match natsOf sh with
            | Option.none => .error "TypeError: shape entries"
            | Option.some shape =>
              if shape.prod = flat.length
              then .ok (.ndarray { shape := shape, dtype := dt, flat := flat })
              else .error "ValueError: cannot reshape"
          | Option.some _ => .error "TypeError: shape"
      else .error "TypeError: data type not understood"
    | Option.some _ => .error "TypeError: data type not understood"

/-- The decoder's view of a `SERIALIZABLE_CLASS_REGISTRY` entry
(`ClassRegistryInfo`): the per-class schema version, the reconstruction
function `from_`, and the optional `upgrade` function.  (The `cls` and `to`
fields of the dataclass are not consulted by `deserialize`; the
registration logic that compares entries is modelled separately by
`RegistryEntryId`.) -/
structure ClassRegistryInfo where
  version : Int
  from_ : PyVal → PyVal
  upgrade : Option (PyVal → Int → Int → PyVal)

/-- `SERIALIZABLE_CLASS_REGISTRY` as the decoder consults it. -/
def Registry := List (String × ClassRegistryInfo)

/-- `name in SERIALIZABLE_CLASS_REGISTRY` plus the entry. -/
def lookupReg (k : String) : Registry → Option ClassRegistryInfo
  | [] => Option.none
  | (k', v) :: r => if k' = k then Option.some v else lookupReg k r

/-- Does the `__type__` tag equal the given special tag string? -/
def isTag (t : Option PyVal) (s : String) : Bool :=
  match t with
  | Option.some (.str s') => s' == s
  | _ => false

/-- `if t and t in SERIALIZABLE_CLASS_REGISTRY` evaluated as Python does:
a falsy tag short-circuits to the `elif`; a truthy tag is hashed by the
membership test, which raises `TypeError` when the tag is unhashable;
registry keys are class-name strings, so only a string tag can resolve to
an entry. -/
def regTagTest (t : Option PyVal) (reg : Registry) : Except String (Option ClassRegistryInfo) :=
  match t with
  | Option.none => .ok Option.none
  | Option.some tv =>
    if truthy tv then
      if hashable tv then
        .ok (match tv with
             | .str s => lookupReg s reg
             | _ => Option.none)
      else .error "TypeError: unhashable type"
    else .ok Option.none

mutual

/-- `Serializable.deserialize`, fuel-indexed (Python's recursion is bounded
by the interpreter's recursion limit; `deserialize` below supplies enough
fuel for any input).  Returns the decoded value together with the number of
unknown-type warnings printed. -/
def deserF : Nat → Registry → PyVal → Except String (PyVal × Nat)
  | 0, _, _ => .error "RecursionError: maximum recursion depth exceeded"
  | n+1, reg, v =>
    match v with
    | .list xs => do
      let (ys, w) ← deserLF n reg xs
      .ok (.list ys, w)
    | .dict kvs =>
      let t := lookupKV "__type__" kvs
      if isTag t "__set__" then
        (match lookupKV "data" kvs with
         | Option.none => .error "KeyError: data"
         | Option.some (.list vs) => do
           let (ys, w) ← deserLF n reg vs
           if hashableList ys then .ok (.set ys, w)
           else .error "TypeError: unhashable type"
         | Option.some _ => .error "TypeError: not iterable")
      else if isTag t "__datetime__" then (decodeDatetime kvs).map (fun r => (r, 0))
      else if isTag t "__ndarray__" then (decodeNdarray kvs).map (fun r => (r, 0))
      else
        match regTagTest t reg with
        | .error e => .error e
        | .ok (Option.some info) =>
          (match lookupKV "state_data" kvs with
           | Option.none => .error "KeyError: state_data"
           | Option.some sd => do
             let (payload, w) ← deserF n reg sd
             let fromV ← pyToInt ((lookupKV "v" kvs).getD (.int 1))
             let payload' :=
               if fromV ≠ info.version then
                 match info.upgrade with
                 | Option.some up => up payload fromV info.version
                 | Option.none => payload
               else payload
             .ok (info.from_ payload', w))
        | .ok Option.none =>
          let warn := if valid_serialized_object kvs then 1 else 0
          do
            let (kvs', w) ← deserKVF n reg kvs
            .ok (.dict kvs', warn + w)
    | x => .ok (x, 0)

/-- Elementwise decoding of a list body. -/
def deserLF : Nat → Registry → List PyVal → Except String (List PyVal × Nat)
  | _, _, [] => .ok ([], 0)
  | 0, _, _ :: _ => .error "RecursionError: maximum recursion depth exceeded"
  | n+1, reg, x :: xs => do
    let (y, w) ← deserF n reg x
    let (ys, w') ← deserLF n reg xs
    .ok (y :: ys, w + w')

/-- Valuewise decoding of a plain-mapping body (keys preserved). -/
def deserKVF : Nat → Registry → List (String × PyVal) → Except String (List (String × PyVal) × Nat)
  | _, _, [] => .ok ([], 0)
  | 0, _, _ :: _ => .error "RecursionError: maximum recursion depth exceeded"
  | n+1, reg, (k, v) :: r => do
    let (v', w) ← deserF n reg v
    let (r', w') ← deserKVF n reg r
    .ok ((k, v') :: r', w + w')

end

mutual

/-- Structural size of a value (the fuel bound for the decoder's walk). -/
def pySize : PyVal → Nat
  | .list xs => pySizeList xs + 1
  | .tuple xs => pySizeList xs + 1
  | .set xs => pySizeList xs + 1
  | .dict kvs => pySizeKVs kvs + 1
  | _ => 1

/-- Size of a list body (each cons adds one). -/
def pySizeList : List PyVal → Nat
  | [] => 0
  | x :: xs => pySize x + pySizeList xs + 1

/-- Size of a dict body (each binding adds one). -/
def pySizeKVs : List (String × PyVal) → Nat
  | [] => 0
  | (_, v) :: r => pySize v + pySizeKVs r + 1

end

/-- `Serializable.deserialize` (wrapper supplying sufficient fuel). -/
def deserialize (reg : Registry) (v : PyVal) : Except String (PyVal × Nat) :=
  deserF (pySize v) reg v


/-! ## Value equality and well-formedness -/

/-- Python `==` on datetimes as the round-trip property compares them:
naive datetimes compare fieldwise, aware datetimes compare as instants
(after normalization to UTC); a naive and an aware datetime are never
equal. -/
def dtEq (a b : PyDateTime) : Prop :=
  match a.utcOffsetMinutes, b.utcOffsetMinutes with
  | Option.none, Option.none => a = b
  | Option.some _, Option.some _ => astimezoneUTC a = astimezoneUTC b
  | _, _ => False

mutual

/-- Value equality for the round-trip property: tuples and lists compare as
plain sequences (the tuple/list distinction is an explicit lossy
conversion), sets compare ignoring member order, dicts compare keywise,
timestamps compare after normalization. -/
inductive ValEq : PyVal → PyVal → Prop
  | none : ValEq .none .none
  | bool (b : Bool) : ValEq (.bool b) (.bool b)
  | int (n : Int) : ValEq (.int n) (.int n)
  | float (bits : Nat) (h : isNaNBits bits = false) : ValEq (.float bits) (.float bits)
  | str (s : String) : ValEq (.str s) (.str s)
  | ndarray (a : NDArray) : ValEq (.ndarray a) (.ndarray a)
  | datetime {a b : PyDateTime} : dtEq a b → ValEq (.datetime a) (.datetime b)
  | list_list {xs ys : List PyVal} : ValEqList xs ys → ValEq (.list xs) (.list ys)
  | list_tuple {xs ys : List PyVal} : ValEqList xs ys → ValEq (.list xs) (.tuple ys)
  | tuple_list {xs ys : List PyVal} : ValEqList xs ys → ValEq (.tuple xs) (.list ys)
  | tuple_tuple {xs ys : List PyVal} : ValEqList xs ys → ValEq (.tuple xs) (.tuple ys)
  | dict {a b : List (String × PyVal)} : ValEqKVs a b → ValEq (.dict a) (.dict b)
  | set {xs ys : List PyVal} (ys' : List PyVal) :
      List.Perm ys ys' → ValEqList xs ys' → ValEq (.set xs) (.set ys)

/-- Pointwise value equality of sequences. -/
inductive ValEqList : List PyVal → List PyVal → Prop
  | nil : ValEqList [] []
  | cons {x y : PyVal} {xs ys : List PyVal} :
      ValEq x y → ValEqList xs ys → ValEqList (x :: xs) (y :: ys)

/-- Keywise value equality of dict bodies. -/
inductive ValEqKVs : List (String × PyVal) → List (String × PyVal) → Prop
  | nil : ValEqKVs [] []
  | cons (k : String) {v w : PyVal} {r r' : List (String × PyVal)} :
      ValEq v w → ValEqKVs r r' → ValEqKVs ((k, v) :: r) ((k, w) :: r')

end

/-- The claim's universe of supported values: JSON-native primitives,
containers of supported values, timestamps, and dense numeric arrays.  Set
members are additionally hashable (a Python `set` cannot hold anything
else) and dense arrays are internally consistent Python-representable
numpy arrays. -/
inductive SupportedVal : PyVal → Prop
  | none : SupportedVal .none
  | bool (b : Bool) : SupportedVal (.bool b)
  | int (n : Int) : SupportedVal (.int n)
  | float (bits : Nat) : SupportedVal (.float bits)
  | str (s : String) : SupportedVal (.str s)
  | datetime (dt : PyDateTime) : SupportedVal (.datetime dt)
  | list {xs : List PyVal} : (∀ x ∈ xs, SupportedVal x) → SupportedVal (.list xs)
  | tuple {xs : List PyVal} : (∀ x ∈ xs, SupportedVal x) → SupportedVal (.tuple xs)
  | dict {kvs : List (String × PyVal)} :
      (∀ p ∈ kvs, SupportedVal (Prod.snd p)) → SupportedVal (.dict kvs)
  | set {xs : List PyVal} :
      (∀ x ∈ xs, SupportedVal x) → (∀ x ∈ xs, hashable x = true) → SupportedVal (.set xs)
  | ndarray {a : NDArray} (hlen : a.flat.length = a.shape.prod)
      (hdt : validDtype a.dtype = true)
      (hrange : ∀ x ∈ a.flat, (dtypeRange a.dtype).1 ≤ x ∧ x ≤ (dtypeRange a.dtype).2) :
      SupportedVal (.ndarray a)

/-- May a dict safely bind `__type__` to this value and still decode as a
plain mapping?  A reserved tag string is mistaken for a tagged node, and
any value whose encoding is truthy but unhashable (a non-empty sequence or
mapping, a set, a timestamp, an array — the latter two encode as tagged
mappings) makes the decoder's `t in SERIALIZABLE_CLASS_REGISTRY`
membership test raise `TypeError`. -/
def tagValueSafe : PyVal → Bool
  | .str s => !(s == "__set__" || s == "__datetime__" || s == "__ndarray__")
  | .none => true
  | .bool _ => true
  | .int _ => true
  | .float _ => true
  | .list xs => xs.isEmpty
  | .tuple xs => xs.isEmpty
  | .dict kvs => kvs.isEmpty
  | .set _ => false
  | .datetime _ => false
  | .ndarray _ => false

/-- May this value be a set member and still decode to a set member?
(Primitives and timestamps round-trip to hashable values; a tuple decodes
to a list, which is unhashable.) -/
def isSetSafeMember : PyVal → Bool
  | .none => true
  | .bool _ => true
  | .int _ => true
  | .float _ => true
  | .str _ => true
  | .datetime _ => true
  | _ => false

/-- The amended round-trip hypotheses: a supported value in which every
dict's `__type__` binding (if any) is `tagValueSafe`, every set member is a
primitive or timestamp (a tuple member decodes to an unhashable list), and
no float is a NaN (`NaN == NaN` is false, so a bare NaN never round-trips
value-equally). -/
inductive WFVal : PyVal → Prop
  | none : WFVal .none
  | bool (b : Bool) : WFVal (.bool b)
  | int (n : Int) : WFVal (.int n)
  | float (bits : Nat) (h : isNaNBits bits = false) : WFVal (.float bits)
  | str (s : String) : WFVal (.str s)
  | datetime (dt : PyDateTime) : WFVal (.datetime dt)
  | list {xs : List PyVal} : (∀ x ∈ xs, WFVal x) → WFVal (.list xs)
  | tuple {xs : List PyVal} : (∀ x ∈ xs, WFVal x) → WFVal (.tuple xs)
  | dict {kvs : List (String × PyVal)} :
      (∀ p ∈ kvs, WFVal (Prod.snd p)) →
      (∀ v, lookupKV "__type__" kvs = Option.some v → tagValueSafe v = true) →
      WFVal (.dict kvs)
  | set {xs : List PyVal} :
      (∀ x ∈ xs, WFVal x) → (∀ x ∈ xs, isSetSafeMember x = true) → WFVal (.set xs)
  | ndarray {a : NDArray} (hlen : a.flat.length = a.shape.prod)
      (hdt : validDtype a.dtype = true)
      (hrange : ∀ x ∈ a.flat, (dtypeRange a.dtype).1 ≤ x ∧ x ≤ (dtypeRange a.dtype).2) :
      WFVal (.ndarray a)

/-! ## Registration (`Serializable._register_json_class`)

The registration guard compares the previous entry's components with the
candidate's by object identity (`prev.cls is cls`, `prev.to == to`, … —
`==` on Python functions is identity).  We model the compared components as
identity tokens; the behavioural content of the functions is irrelevant to
the registration logic. -/

/-- A registry entry as the registration guard compares it: identity tokens
for the class and the three functions, plus the schema version. -/
structure RegistryEntryId where
  cls : Nat
  to_ : Nat
  from_ : Nat
  version : Int
  upgrade : Option Nat
  deriving DecidableEq, Repr

/-- Lookup in the identity-view registry. -/
def lookupEntry (k : String) : List (String × RegistryEntryId) → Option RegistryEntryId
  | [] => Option.none
  | (k', v) :: r => if k' = k then Option.some v else lookupEntry k r

/-- `SERIALIZABLE_CLASS_REGISTRY[name] = entry`: dict assignment replaces an
existing binding in place, otherwise appends. -/
def setEntry : List (String × RegistryEntryId) → String → RegistryEntryId → List (String × RegistryEntryId)
  | [], n, e => [(n, e)]
  | (k, v) :: r, n, e => if k = n then (k, e) :: r else (k, v) :: setEntry r n e

/-- `Serializable._register_json_class`: if an identical entry is already
registered under the name, do nothing; otherwise (re)assign the binding. -/
def registerJsonClass (reg : List (String × RegistryEntryId)) (name : String)
    (e : RegistryEntryId) : List (String × RegistryEntryId) :=
  match lookupEntry name reg with
  | Option.some prev => if prev = e then reg else setEntry reg name e
  | Option.none => setEntry reg name e

/-! ## Subclass registration (`Serializable.__init_subclass__`)

A participating class is modelled by what it itself declares; attribute
lookup falls back to the nearest ancestor.  `Serializable` itself declares
`__state_fields__ = ()`, so a chain of auto-registered subclasses starts
from an inherited empty field list. -/

/-- What a subclass declares in its own body. -/
structure PyClassDecl where
  /-- its own `__state_fields__`, if it declares one -/
  declared : Option (List String)
  /-- its own `__extend_state_fields__`, if it declares one -/
  extendDecl : Option Bool

/-- One run of `__init_subclass__` field processing for a class `c`:
`inherited` is the `__state_fields__` value visible on the nearest ancestor
(what both `hasattr`, the `__mro__[1:]` walk, and attribute lookup on `c`
fall back to), `inhExtend` the inherited `__extend_state_fields__`.
Returns the `__state_fields__` value visible on `c` afterwards. -/
def initSubclassFields (inherited : Option (List String)) (inhExtend : Option Bool)
    (c : PyClassDecl) : Except String (List String) :=
  if c.declared.isNone && inherited.isNone then
    .error "AttributeError: must define __state_fields__"
  else
    let lookupVal := c.declared.getD (inherited.getD [])
    let extendVal := c.extendDecl.getD (inhExtend.getD true)
    if extendVal then .ok ((inherited.getD []) ++ lookupVal)
    else .ok lookupVal

/-- Register a single-inheritance chain of subclasses (outermost ancestor
first), threading the inherited attribute values; returns the
`__state_fields__` value visible on the last class of the chain. -/
def registerChainAux (inherited : Option (List String)) (inhExtend : Option Bool) :
    List PyClassDecl → Except String (Option (List String))
  | [] => .ok inherited
  | c :: rest => do
    let f ← initSubclassFields inherited inhExtend c
    registerChainAux (Option.some f) (c.extendDecl.orElse (fun _ => inhExtend)) rest

/-- Register a chain of subclasses below `Serializable` itself, which
declares `__state_fields__ = ()` (and no `__extend_state_fields__`). -/
def registerSerializableChain (cs : List PyClassDecl) : Except String (Option (List String)) :=
  registerChainAux (Option.some []) Option.none cs

/-! ## Reduction helpers for `Except` binds -/

/-- `do`-bind of a success. -/
theorem ok_bind_eq {e' a b : Type} (x : a) (f : a → Except e' b) :
    (Except.ok x : Except e' a) >>= f = f x := rfl

/-- `do`-bind of a failure. -/
theorem error_bind_eq {e' a b : Type} (s : e') (f : a → Except e' b) :
    (Except.error s : Except e' a) >>= f = Except.error s := rfl

/-- `Except.map` on a success. -/
theorem map_ok_eq {e' a b : Type} (f : a → b) (x : a) :
    Except.map f (Except.ok x : Except e' a) = Except.ok (f x) := rfl

/-- `Except.map` on a failure. -/
theorem map_error_eq {e' a b : Type} (f : a → b) (s : e') :
    Except.map f (Except.error s : Except e' a) = Except.error s := rfl

/-! ## Claims about decoding unknown and incomplete envelopes -/

/-- C4: deserializing `{"__type__": "Ghost", "cls_serializer_version": 1,
"state_data": {"x": 1}}` with no `Ghost` registered does not raise: it
returns the plain mapping with all three original keys (the `state_data`
value recursively decoded) and prints exactly one warning. -/
theorem C4_unknown_type_warns_and_degrades (reg : Registry)
    (h : lookupReg "Ghost" reg = Option.none) :
    deserialize reg (.dict [("__type__", .str "Ghost"), ("cls_serializer_version", .int 1),
        ("state_data", .dict [("x", .int 1)])])
      = .ok (.dict [("__type__", .str "Ghost"), ("cls_serializer_version", .int 1),
        ("state_data", .dict [("x", .int 1)])], 1) := by
  simp [deserialize, pySize, pySizeKVs, pySizeList, deserF, deserKVF, lookupKV, isTag,
    regTagTest, truthy, hashable, h, valid_serialized_object, ok_bind_eq]

/-- Witness for C4 at the empty registry. -/
theorem C4_unknown_type_warns_and_degrades_witness :
    deserialize [] (.dict [("__type__", .str "Ghost"), ("cls_serializer_version", .int 1),
        ("state_data", .dict [("x", .int 1)])])
      = .ok (.dict [("__type__", .str "Ghost"), ("cls_serializer_version", .int 1),
        ("state_data", .dict [("x", .int 1)])], 1) :=
  C4_unknown_type_warns_and_degrades [] rfl

/-- C10: for a mapping whose `__type__` is an unregistered, non-reserved
tag, the decoder adds its unknown-type warning exactly when all three
envelope keys are present: lacking `cls_serializer_version` or
`state_data`, the mapping decodes exactly as a plain mapping — no warning
and no error beyond those of its members; with all three keys present it
decodes as a plain mapping with exactly one extra warning. -/
theorem C10_incomplete_envelope_decodes_silently (reg : Registry)
    (kvs : List (String × PyVal)) (s : String)
    (ht : lookupKV "__type__" kvs = Option.some (.str s))
    (h1 : s ≠ "__set__") (h2 : s ≠ "__datetime__") (h3 : s ≠ "__ndarray__")
    (hr : lookupReg s reg = Option.none) :
    (lookupKV "cls_serializer_version" kvs = Option.none ∨
        lookupKV "state_data" kvs = Option.none →
      deserialize reg (.dict kvs)
        = (deserKVF (pySizeKVs kvs) reg kvs).map (fun p => (.dict p.1, p.2))) ∧
    ((lookupKV "cls_serializer_version" kvs).isSome = true →
      (lookupKV "state_data" kvs).isSome = true →
      deserialize reg (.dict kvs)
        = (deserKVF (pySizeKVs kvs) reg kvs).map (fun p => (.dict p.1, 1 + p.2))) := by
  have hstep : deserialize reg (.dict kvs) = deserF (pySizeKVs kvs + 1) reg (.dict kvs) := by
    simp [deserialize, pySize]
  have hreg : regTagTest (Option.some (.str s)) reg = .ok Option.none := by
    by_cases hs : s = "" <;> simp [regTagTest, truthy, hashable, hs, hr]
  constructor
  · intro hmiss
    have hv : valid_serialized_object kvs = false := by
      rcases hmiss with hm | hm <;> simp [valid_serialized_object, hm]
    rw [hstep]
    simp only [deserF, isTag, ht]
    rw [show (s == "__set__") = false by simpa using h1,
        show (s == "__datetime__") = false by simpa using h2,
        show (s == "__ndarray__") = false by simpa using h3]
    simp only [Bool.false_eq_true, if_false]
    rw [hreg]
    simp only [hv, if_false]
    cases hd : deserKVF (pySizeKVs kvs) reg kvs with
    | error e => simp [hd, error_bind_eq, map_error_eq]
    | ok p => simp [hd, ok_bind_eq, map_ok_eq]
  · intro hcv hsd
    have hv : valid_serialized_object kvs = true := by
      simp [valid_serialized_object, ht, hcv, hsd]
    rw [hstep]
    simp only [deserF, isTag, ht]
    rw [show (s == "__set__") = false by simpa using h1,
        show (s == "__datetime__") = false by simpa using h2,
        show (s == "__ndarray__") = false by simpa using h3]
    simp only [Bool.false_eq_true, if_false]
    rw [hreg]
    simp only [hv, if_true]
    cases hd : deserKVF (pySizeKVs kvs) reg kvs with
    | error e => simp [hd, error_bind_eq, map_error_eq]
    | ok p => simp [hd, ok_bind_eq, map_ok_eq]

/-- Witness for C10: `{"__type__": "Ghost"}` decodes silently, while the
full three-key envelope gets exactly one warning, at the empty registry. -/
theorem C10_incomplete_envelope_decodes_silently_witness :
    deserialize [] (.dict [("__type__", .str "Ghost")])
      = (deserKVF (pySizeKVs [("__type__", .str "Ghost")]) []
          [("__type__", .str "Ghost")]).map (fun p => (.dict p.1, p.2)) ∧
    deserialize [] (.dict [("__type__", .str "Ghost"), ("cls_serializer_version", .int 1),
        ("state_data", .int 0)])
      = (deserKVF (pySizeKVs [("__type__", .str "Ghost"), ("cls_serializer_version", .int 1),
          ("state_data", .int 0)]) [] [("__type__", .str "Ghost"),
          ("cls_serializer_version", .int 1), ("state_data", .int 0)]).map
          (fun p => (.dict p.1, 1 + p.2)) :=
  ⟨(C10_incomplete_envelope_decodes_silently [] [("__type__", .str "Ghost")] "Ghost" rfl
      (by decide) (by decide) (by decide) rfl).1 (Or.inl rfl),
   (C10_incomplete_envelope_decodes_silently []
      [("__type__", .str "Ghost"), ("cls_serializer_version", .int 1), ("state_data", .int 0)]
      "Ghost" rfl (by decide) (by decide) (by decide) rfl).2 rfl rfl⟩

/-! ## Claim about registration idempotence (C5) -/

/-- Assigning a binding makes it the one `lookupEntry` finds. -/
theorem lookupEntry_setEntry (reg : List (String × RegistryEntryId)) (name : String)
    (e : RegistryEntryId) : lookupEntry name (setEntry reg name e) = Option.some e := by
  induction reg with
  | nil => simp [setEntry, lookupEntry]
  | cons kv r ih =>
    obtain ⟨k, v⟩ := kv
    by_cases hk : k = name <;> simp [setEntry, lookupEntry, hk, ih]

/-- C5: registering an identical entry a second time leaves the registry
unchanged (and raises nothing — registration is total); a non-identical
registration under the same name overwrites the entry. -/
theorem C5_registration_idempotent_or_overwrites
    (reg : List (String × RegistryEntryId)) (name : String) (e : RegistryEntryId) :
    (lookupEntry name reg = Option.some e → registerJsonClass reg name e = reg) ∧
    (∀ prev, lookupEntry name reg = Option.some prev → prev ≠ e →
      lookupEntry name (registerJsonClass reg name e) = Option.some e) := by
  constructor
  · intro h
    simp [registerJsonClass, h]
  · intro prev hp hne
    simp only [registerJsonClass, hp]
    rw [if_neg hne]
    exact lookupEntry_setEntry reg name e

/-- Witness for C5: identical re-registration is the identity; a
version-bumped entry overwrites. -/
theorem C5_registration_idempotent_or_overwrites_witness :
    registerJsonClass [("A", ⟨1, 2, 3, 1, Option.none⟩)] "A" ⟨1, 2, 3, 1, Option.none⟩
        = [("A", ⟨1, 2, 3, 1, Option.none⟩)] ∧
    lookupEntry "A" (registerJsonClass [("A", ⟨1, 2, 3, 1, Option.none⟩)] "A"
        ⟨1, 2, 3, 2, Option.none⟩) = Option.some ⟨1, 2, 3, 2, Option.none⟩ :=
  ⟨(C5_registration_idempotent_or_overwrites _ "A" _).1 rfl,
   (C5_registration_idempotent_or_overwrites _ "A" _).2 ⟨1, 2, 3, 1, Option.none⟩ rfl
     (by decide)⟩

/-! ## Claims about state-field inheritance (C6, C7) -/

/-- `__init_subclass__` never raises once an ancestor carries the attribute:
the resulting field list is the inherited one followed by the class's
attribute-lookup value (its own declaration if any, the inherited value
again otherwise), or just the attribute-lookup value when extension is
disabled. -/
theorem initSubclassFields_some (base : List String) (inhE : Option Bool)
    (c : PyClassDecl) :
    initSubclassFields (Option.some base) inhE c
      = .ok (if c.extendDecl.getD (inhE.getD true)
             then base ++ c.declared.getD base
             else c.declared.getD base) := by
  cases hc : c.declared <;> simp [initSubclassFields, hc] <;> split <;> rfl

/-- C6 counterexample: a subclass that declares no fields of its own below a
parent declaring `["a"]` ends up with the parent's list *doubled*
(`cls.__state_fields__` falls back to the inherited value, which the merge
then appends to itself), not with the parent's list. -/
theorem C6_no_own_fields_doubles_counterexample :
    registerSerializableChain [⟨Option.some ["a"], Option.none⟩, ⟨Option.none, Option.none⟩]
        = .ok (Option.some ["a", "a"]) ∧ ("a" :: "a" :: []) ≠ ("a" :: []) :=
  ⟨rfl, by decide⟩

/-- C6 (amended): with extension enabled the effective list is the nearest
ancestor's effective list followed by the class's `__state_fields__`
attribute lookup — its own declared fields when it declares any, the
ancestor's effective list again when it does not; with extension disabled it
is the attribute-lookup value alone. -/
theorem C6_field_merging_amended (inh : Option (List String)) (inhE : Option Bool)
    (c : PyClassDecl) (base : List String) (h : inh = Option.some base) :
    initSubclassFields inh inhE c
      = .ok (if c.extendDecl.getD (inhE.getD true)
             then base ++ c.declared.getD base
             else c.declared.getD base) := by
  subst h
  exact initSubclassFields_some base inhE c

/-- Witness for the amended C6: a subclass declaring `["b"]` below an
ancestor with effective fields `["a"]` ends up with `["a", "b"]`. -/
theorem C6_field_merging_amended_witness :
    initSubclassFields (Option.some ["a"]) Option.none ⟨Option.some ["b"], Option.none⟩
      = .ok ["a", "b"] := by
  have h := C6_field_merging_amended (Option.some ["a"]) Option.none
    ⟨Option.some ["b"], Option.none⟩ ["a"] rfl
  simpa using h

/-- C7 counterexample: a subclass chain in which no user class ever declares
`__state_fields__` registers *successfully* (with the empty field list
inherited from `Serializable`, which itself declares `()`); the claimed
registration-time error does not occur. -/
theorem C7_no_declaration_registers_counterexample :
    registerSerializableChain [⟨Option.none, Option.none⟩] = .ok (Option.some []) := rfl

/-- C7 (amended): the `AttributeError` guard fires exactly when the
attribute is absent from the entire chain; since `Serializable` itself
declares an empty field tuple, every auto-registered subclass inherits the
attribute and registration of a chain never fails (declaring an empty list
is in particular legal). -/
theorem C7_registration_never_fails_amended :
    (∀ (inhE : Option Bool) (c : PyClassDecl), c.declared = Option.none →
      initSubclassFields Option.none inhE c
        = .error "AttributeError: must define __state_fields__") ∧
    (∀ cs : List PyClassDecl, ∃ r, registerSerializableChain cs = .ok r) := by
  constructor
  · intro inhE c hc
    simp [initSubclassFields, hc]
  · have aux : ∀ (cs : List PyClassDecl) (base : List String) (inhE : Option Bool),
        ∃ r, registerChainAux (Option.some base) inhE cs = .ok r := by
      intro cs
      induction cs with
      | nil => intro base inhE; exact ⟨Option.some base, rfl⟩
      | cons c rest ih =>
        intro base inhE
        obtain ⟨r, hr⟩ := ih (if c.extendDecl.getD (inhE.getD true)
            then base ++ c.declared.getD base else c.declared.getD base)
          (c.extendDecl.orElse (fun _ => inhE))
        exact ⟨r, by simp [registerChainAux, initSubclassFields_some, ok_bind_eq, hr]⟩
    intro cs
    exact aux cs [] Option.none

/-- Witness for the amended C7: the guard fires on a bare class with no
inherited attribute, and a declaration-free chain registers fine. -/
theorem C7_registration_never_fails_amended_witness :
    initSubclassFields Option.none Option.none ⟨Option.none, Option.none⟩
        = .error "AttributeError: must define __state_fields__" ∧
    ∃ r, registerSerializableChain [⟨Option.some [], Option.none⟩] = .ok r :=
  ⟨C7_registration_never_fails_amended.1 Option.none ⟨Option.none, Option.none⟩ rfl,
   C7_registration_never_fails_amended.2 [⟨Option.some [], Option.none⟩]⟩

/-! ## Claim about version dispatch during decode (C3) -/

/-- An entry with current version 2 whose upgrade function replaces the
payload with a marker and whose `from_` is the identity. -/
def markerInfo : ClassRegistryInfo :=
  ⟨2, fun p => p, Option.some (fun _ _ _ => .str "upgraded")⟩

/-- A registry holding `markerInfo` under the name `T`. -/
def regMarkerT : Registry := [("T", markerInfo)]

/-- C3 counterexample: the decoder does *not* compare the node's
`cls_serializer_version` to the entry's version — it reads the `v` key
(defaulting to 1).  A node whose declared `cls_serializer_version` equals
the entry's current version (2) is still passed through the upgrade
function, because it carries no `v` key. -/
theorem C3_reads_v_key_counterexample :
    deserialize regMarkerT (.dict [("__type__", .str "T"),
        ("cls_serializer_version", .int 2), ("state_data", .dict [])])
      = .ok (.str "upgraded", 0) ∧
    deserialize regMarkerT (.dict [("__type__", .str "T"),
        ("cls_serializer_version", .int 2), ("state_data", .dict [])])
      ≠ .ok (.dict [], 0) := by
  refine ⟨rfl, ?_⟩
  intro h
  rw [show deserialize regMarkerT (.dict [("__type__", .str "T"),
      ("cls_serializer_version", .int 2), ("state_data", .dict [])])
    = .ok (.str "upgraded", 0) from rfl] at h
  injection h with h1
  injection h1 with h2 h3
  injection h2

/-- C3 (amended): on a registered tag the decoder first fully decodes
`state_data` (inner-out), reads the source version from the node's `v` key
— not from `cls_serializer_version` — defaulting to 1 when absent, and if
and only if that version differs from the entry's current version *and* the
entry has an upgrade function, applies it with
`(payload, from_version, to_version)`; finally it applies the entry's
`from_` function to the (possibly upgraded) payload. -/
theorem C3_version_dispatch_amended (reg : Registry)
    (kvs : List (String × PyVal)) (s : String) (info : ClassRegistryInfo)
    (sd payload : PyVal) (w : Nat) (fromV : Int)
    (ht : lookupKV "__type__" kvs = Option.some (.str s))
    (h1 : s ≠ "__set__") (h2 : s ≠ "__datetime__") (h3 : s ≠ "__ndarray__")
    (hs : s ≠ "")
    (hr : lookupReg s reg = Option.some info)
    (hsd : lookupKV "state_data" kvs = Option.some sd)
    (hp : deserF (pySizeKVs kvs) reg sd = .ok (payload, w))
    (hv : pyToInt ((lookupKV "v" kvs).getD (.int 1)) = .ok fromV) :
    deserialize reg (.dict kvs)
      = .ok (info.from_
          (if fromV ≠ info.version then
            match info.upgrade with
            | Option.some up => up payload fromV info.version
            | Option.none => payload
          else payload), w) := by
  have hstep : deserialize reg (.dict kvs) = deserF (pySizeKVs kvs + 1) reg (.dict kvs) := by
    simp [deserialize, pySize]
  rw [hstep]
  simp only [deserF, isTag, ht]
  rw [show (s == "__set__") = false by simpa using h1,
      show (s == "__datetime__") = false by simpa using h2,
      show (s == "__ndarray__") = false by simpa using h3]
  simp only [Bool.false_eq_true, if_false]
  have hreg : regTagTest (Option.some (.str s)) reg = .ok (Option.some info) := by
    simp [regTagTest, truthy, hashable, hs, hr]
  rw [hreg, hsd]
  dsimp only
  rw [hp, ok_bind_eq, hv, ok_bind_eq]

/-- Witness for the amended C3: with entry version 2, payload `{}` decoded
from `state_data`, and no `v` key (so `from_version = 1 ≠ 2`), the upgrade
function runs. -/
theorem C3_version_dispatch_amended_witness :
    deserialize regMarkerT (.dict [("__type__", .str "T"),
        ("cls_serializer_version", .int 2), ("state_data", .dict [])])
      = .ok (markerInfo.from_
          (if (1 : Int) ≠ markerInfo.version then
            match markerInfo.upgrade with
            | Option.some up => up (.dict []) 1 markerInfo.version
            | Option.none => (.dict [])
          else (.dict [])), 0) :=
  C3_version_dispatch_amended regMarkerT
    [("__type__", .str "T"), ("cls_serializer_version", .int 2), ("state_data", .dict [])]
    "T" markerInfo (.dict []) (.dict []) 0 1
    rfl (by decide) (by decide) (by decide) (by decide) rfl rfl rfl rfl

/-! ## Digit-string lemmas: `parseDigits` inverts `padChars` -/

/-- Digit characters carry their value in the expected ASCII slot. -/
theorem digitChar10_toNat {d : Nat} (h : d < 10) : (digitChar10 d).toNat = 48 + d := by
  interval_cases d <;> decide

/-- Digit characters satisfy the digit test. -/
theorem isDigitCh_digitChar10 {d : Nat} (h : d < 10) : isDigitCh (digitChar10 d) = true := by
  interval_cases d <;> decide

/-- Every character `natChars` produces is a decimal digit. -/
theorem natChars_digits (n : Nat) : ∀ c ∈ natChars n, isDigitCh c = true := by
  intro c hc
  by_cases h : n = 0
  · simp [natChars, h] at hc
    subst hc
    decide
  · simp [natChars, h] at hc
    obtain ⟨d, hd, rfl⟩ := hc
    exact isDigitCh_digitChar10 (Nat.digits_lt_base (by norm_num) hd)

/-- Every character `padChars` produces is a decimal digit. -/
theorem padChars_digits (w n : Nat) : ∀ c ∈ padChars w n, isDigitCh c = true := by
  intro c hc
  rcases List.mem_append.1 hc with h | h
  · rcases List.eq_of_mem_replicate h with rfl
    decide
  · exact natChars_digits n c h

/-- Leading zeros do not change the parsed value. -/
theorem parseDigits_replicate_zero (k : Nat) (cs : List Char) :
    parseDigits (List.replicate k '0' ++ cs) = parseDigits cs := by
  induction k with
  | zero => rfl
  | succ k ih => simpa [parseDigits, List.replicate_succ] using ih

/-- Folding the decimal accumulator over digit characters equals folding it
over the digit values. -/
theorem foldl_map_digitChar10 (l : List Nat) (h : ∀ d ∈ l, d < 10) (a : Nat) :
    (l.map digitChar10).foldl (fun a c => a * 10 + (c.toNat - 48)) a
      = l.foldl (fun a d => a * 10 + d) a := by
  induction l generalizing a with
  | nil => rfl
  | cons d t ih =>
    have hd : d < 10 := h d (List.mem_cons_self d t)
    simp only [List.map_cons, List.foldl_cons, digitChar10_toNat hd, Nat.add_sub_cancel_left]
    exact ih (fun x hx => h x (List.mem_cons_of_mem d hx)) _

/-- The big-endian decimal fold evaluates little-endian digits like
`Nat.ofDigits`. -/
theorem foldr_eq_ofDigits (l : List Nat) :
    l.foldr (fun d a => a * 10 + d) 0 = Nat.ofDigits 10 l := by
  induction l with
  | nil => simp [Nat.ofDigits]
  | cons d t ih =>
    simp only [List.foldr_cons, Nat.ofDigits_cons]
    rw [ih]
    ring

/-- `parseDigits` inverts `natChars`. -/
theorem parseDigits_natChars (n : Nat) : parseDigits (natChars n) = n := by
  by_cases h : n = 0
  · subst h; decide
  · simp only [natChars, h, if_false, parseDigits]
    rw [foldl_map_digitChar10 _ (fun d hd => Nat.digits_lt_base (by norm_num)
      (List.mem_reverse.1 hd)) 0]
    rw [List.foldl_reverse]
    simpa using foldr_eq_ofDigits (Nat.digits 10 n) ▸ Nat.ofDigits_digits 10 n

/-- `parseDigits` inverts `padChars`. -/
theorem parseDigits_padChars (w n : Nat) : parseDigits (padChars w n) = n := by
  unfold padChars
  rw [parseDigits_replicate_zero, parseDigits_natChars]

/-- `natChars` is never empty. -/
theorem natChars_ne_nil (n : Nat) : natChars n ≠ [] := by
  by_cases h : n = 0
  · simp [natChars, h]
  · simp [natChars, h]
    exact Nat.digits_ne_nil_iff_ne_zero.2 h

/-- `padChars` is never empty. -/
theorem padChars_ne_nil (w n : Nat) : padChars w n ≠ [] := by
  unfold padChars
  intro hcontra
  rcases List.append_eq_nil.1 hcontra with ⟨_, h2⟩
  exact natChars_ne_nil n h2

/-! ## `parseIso` inverts `isoChars` -/

/-- `takeDigits` splits a digit run followed by a non-digit. -/
theorem takeDigits_append (ds : List Char) (c : Char) (rest : List Char)
    (hds : ∀ x ∈ ds, isDigitCh x = true) (hc : isDigitCh c = false) :
    takeDigits (ds ++ c :: rest) = (ds, c :: rest) := by
  induction ds with
  | nil => simp [takeDigits, List.takeWhile_cons, List.dropWhile_cons, hc]
  | cons d t ih =>
    have hd : isDigitCh d = true := hds d (List.mem_cons_self d t)
    have ht := ih (fun x hx => hds x (List.mem_cons_of_mem d hx))
    simp only [takeDigits, List.cons_append, List.takeWhile_cons, List.dropWhile_cons, hd,
      if_true] at ht ⊢
    simp only [Prod.mk.injEq] at ht ⊢
    exact ⟨by rw [ht.1], ht.2⟩

/-- `takeDigits` consumes a digit run that ends the string. -/
theorem takeDigits_all (ds : List Char) (hds : ∀ x ∈ ds, isDigitCh x = true) :
    takeDigits ds = (ds, []) := by
  induction ds with
  | nil => rfl
  | cons d t ih =>
    have hd : isDigitCh d = true := hds d (List.mem_cons_self d t)
    have ht := ih (fun x hx => hds x (List.mem_cons_of_mem d hx))
    simp only [takeDigits, List.takeWhile_cons, List.dropWhile_cons, hd, if_true] at ht ⊢
    simp only [Prod.mk.injEq] at ht ⊢
    exact ⟨by rw [ht.1], ht.2⟩

/-- `readField` reads back a padded field followed by its delimiter. -/
theorem readField_pad (w n : Nat) (delim : Char) (rest : List Char)
    (hd : isDigitCh delim = false) :
    readField delim (padChars w n ++ delim :: rest) = Option.some (n, rest) := by
  unfold readField
  rw [takeDigits_append _ _ _ (padChars_digits w n) hd]
  obtain ⟨c0, cs0, h0⟩ := List.exists_cons_of_ne_nil (padChars_ne_nil w n)
  rw [h0]
  simp only [if_pos rfl, ← h0, parseDigits_padChars, if_true]

/-- `do`-bind of a present option. -/
theorem some_bind_eq {a b : Type} (x : a) (f : a → Option b) :
    (Option.some x >>= f) = f x := rfl

/-- The ISO delimiters are not digits. -/
theorem isDigitCh_dash : isDigitCh '-' = false := by decide

/-- `T` is not a digit. -/
theorem isDigitCh_T : isDigitCh 'T' = false := by decide

/-- `:` is not a digit. -/
theorem isDigitCh_colon : isDigitCh ':' = false := by decide

/-- `.` is not a digit. -/
theorem isDigitCh_dot : isDigitCh '.' = false := by decide

/-- `+` is not a digit. -/
theorem isDigitCh_plus : isDigitCh '+' = false := by decide

/-- Parsing a formatted date-time body (optionally followed by the UTC
offset suffix) recovers the fields exactly. -/
theorem parseIso_isoBody (dt : PyDateTime) (tail : List Char)
    (htail : tail = [] ∨ tail = ['+', '0', '0', ':', '0', '0']) :
    parseIso (isoBodyChars dt ++ tail)
      = Option.some
          { year := dt.year
            month := dt.month
            day := dt.day
            hour := dt.hour
            minute := dt.minute
            second := dt.second
            microsecond := dt.microsecond
            utcOffsetMinutes := if tail.isEmpty then Option.none else Option.some 0 } := by
  obtain ⟨c0, cs0, h0⟩ := List.exists_cons_of_ne_nil (padChars_ne_nil 6 dt.microsecond)
  rcases htail with rfl | rfl
  · simp only [isoBodyChars, List.append_assoc, List.cons_append, List.append_nil]
    unfold parseIso
    simp only [readField_pad, isDigitCh_dash, isDigitCh_T, isDigitCh_colon, isDigitCh_dot,
      some_bind_eq]
    rw [takeDigits_all _ (padChars_digits 6 dt.microsecond)]
    rw [h0]
    simp only [← h0, parseDigits_padChars, List.isEmpty_nil, if_pos]
  · simp only [isoBodyChars, List.append_assoc, List.cons_append]
    unfold parseIso
    simp only [readField_pad, isDigitCh_dash, isDigitCh_T, isDigitCh_colon, isDigitCh_dot,
      some_bind_eq]
    rw [takeDigits_append _ '+' _ (padChars_digits 6 dt.microsecond) isDigitCh_plus]
    rw [h0]
    simp only [← h0, parseDigits_padChars]
    rfl

/-- A digit character is neither `+` nor `Z`. -/
theorem digit_ne_plus_z {c : Char} (h : isDigitCh c = true) : c ≠ '+' ∧ c ≠ 'Z' := by
  constructor
  · intro hh
    subst hh
    exact absurd h (by decide)
  · intro hh
    subst hh
    exact absurd h (by decide)

/-- Every character of an ISO date-time body is a digit or one of the
delimiters `-`, `T`, `:`, `.` — in particular neither `+` nor `Z`. -/
theorem isoBodyChars_safe (dt : PyDateTime) :
    ∀ c ∈ isoBodyChars dt, c ≠ '+' ∧ c ≠ 'Z' := by
  have hpad : ∀ w n, ∀ c ∈ padChars w n, c ≠ '+' ∧ c ≠ 'Z' :=
    fun w n c hc => digit_ne_plus_z (padChars_digits w n c hc)
  unfold isoBodyChars
  simp only [List.append_assoc, List.cons_append]
  refine List.forall_mem_append.2 ⟨hpad 4 dt.year, ?_⟩
  refine List.forall_mem_cons.2 ⟨⟨by decide, by decide⟩, ?_⟩
  refine List.forall_mem_append.2 ⟨hpad 2 dt.month, ?_⟩
  refine List.forall_mem_cons.2 ⟨⟨by decide, by decide⟩, ?_⟩
  refine List.forall_mem_append.2 ⟨hpad 2 dt.day, ?_⟩
  refine List.forall_mem_cons.2 ⟨⟨by decide, by decide⟩, ?_⟩
  refine List.forall_mem_append.2 ⟨hpad 2 dt.hour, ?_⟩
  refine List.forall_mem_cons.2 ⟨⟨by decide, by decide⟩, ?_⟩
  refine List.forall_mem_append.2 ⟨hpad 2 dt.minute, ?_⟩
  refine List.forall_mem_cons.2 ⟨⟨by decide, by decide⟩, ?_⟩
  refine List.forall_mem_append.2 ⟨hpad 2 dt.second, ?_⟩
  refine List.forall_mem_cons.2 ⟨⟨by decide, by decide⟩, ?_⟩
  exact hpad 6 dt.microsecond

/-- A head that is not `+` passes through `replace("+00:00","Z")`. -/
theorem replacePlus0000_cons_ne (c : Char) (rest : List Char) (hc : c ≠ '+') :
    replacePlus0000 (c :: rest) = c :: replacePlus0000 rest := by
  rw [replacePlus0000.eq_def]
  split
  · rename_i heq
    injection heq with h1 _
    exact absurd h1 hc
  · rename_i c' rest' heq
    injection heq with h1 h2
    rw [h1, h2]
  · rename_i heq
    exact absurd heq (by simp)

/-- A head that is not `Z` passes through `replace("Z","+00:00")`. -/
theorem replaceZ_cons_ne (c : Char) (rest : List Char) (hc : c ≠ 'Z') :
    replaceZ (c :: rest) = c :: replaceZ rest := by
  rw [replaceZ.eq_def]
  split
  · rename_i heq
    injection heq with h1 _
    exact absurd h1 hc
  · rename_i c' rest' heq
    injection heq with h1 h2
    rw [h1, h2]
  · rename_i heq
    exact absurd heq (by simp)

/-- `replace("+00:00","Z")` leaves a `+`-free prefix untouched. -/
theorem replacePlus0000_append (cs tail : List Char) (h : ∀ c ∈ cs, c ≠ '+') :
    replacePlus0000 (cs ++ tail) = cs ++ replacePlus0000 tail := by
  induction cs with
  | nil => rfl
  | cons c t ih =>
    rw [List.cons_append, replacePlus0000_cons_ne c _ (h c (List.mem_cons_self c t)),
      ih (fun x hx => h x (List.mem_cons_of_mem c hx)), List.cons_append]

/-- `replace("Z","+00:00")` leaves a `Z`-free prefix untouched. -/
theorem replaceZ_append (cs tail : List Char) (h : ∀ c ∈ cs, c ≠ 'Z') :
    replaceZ (cs ++ tail) = cs ++ replaceZ tail := by
  induction cs with
  | nil => rfl
  | cons c t ih =>
    rw [List.cons_append, replaceZ_cons_ne c _ (h c (List.mem_cons_self c t)),
      ih (fun x hx => h x (List.mem_cons_of_mem c hx)), List.cons_append]

/-- The ISO body does not end in `Z`. -/
theorem endsWithZ_isoBody (dt : PyDateTime) : endsWithZ (isoBodyChars dt) = false := by
  unfold endsWithZ
  cases hl : (isoBodyChars dt).getLast? with
  | none => rfl
  | some c =>
    have hmem : c ∈ isoBodyChars dt := List.mem_of_mem_getLast? (by simp [hl])
    have := (isoBodyChars_safe dt c hmem).2
    simp [this]

/-- An aware datetime normalized to UTC carries offset `+00:00`. -/
theorem astimezoneUTC_offset (dt : PyDateTime) (o : Int)
    (h : dt.utcOffsetMinutes = Option.some o) :
    (astimezoneUTC dt).utcOffsetMinutes = Option.some 0 := by
  unfold astimezoneUTC
  rw [h]
  by_cases ho : o = 0
  · simp [ho]
  · simp [ho, utcOfMicros]

/-- `astimezone(timezone.utc)` is idempotent on aware datetimes. -/
theorem astimezoneUTC_idem (dt : PyDateTime) (o : Int)
    (h : dt.utcOffsetMinutes = Option.some o) :
    astimezoneUTC (astimezoneUTC dt) = astimezoneUTC dt := by
  have h0 := astimezoneUTC_offset dt o h
  cases hd : astimezoneUTC dt with
  | mk y mo da hh mi se us tz =>
    rw [hd] at h0
    simp only at h0
    unfold astimezoneUTC
    simp [h0]

/-- Rebuilding a UTC datetime from its own fields is the identity. -/
theorem pyDateTime_eta_utc (dt' : PyDateTime) (h : dt'.utcOffsetMinutes = Option.some 0) :
    ({ year := dt'.year, month := dt'.month, day := dt'.day, hour := dt'.hour
       minute := dt'.minute, second := dt'.second, microsecond := dt'.microsecond
       utcOffsetMinutes := Option.some 0 } : PyDateTime) = dt' := by
  cases dt'
  simp_all

/-- `String.mk` and `String.toList` are inverse. -/
theorem string_mk_toList (l : List Char) : (String.mk l).toList = l := rfl

/-- The offset suffix for UTC is the literal `+00:00`. -/
theorem isoOffsetChars_zero : isoOffsetChars 0 = ['+', '0', '0', ':', '0', '0'] := rfl

/-- A string ending in `Z` satisfies `endswith("Z")`. -/
theorem endsWithZ_concat_z (cs : List Char) : endsWithZ (cs ++ ['Z']) = true := by
  unfold endsWithZ
  rw [List.getLast?_concat]
  rfl

/-- Decoding an encoded datetime yields the normalized datetime: a naive
one unchanged, an aware one converted to UTC (the fuel-indexed decoder
needs one step of fuel). -/
theorem deserF_encodeDatetime (n : Nat) (reg : Registry) (dt : PyDateTime) :
    deserF (n + 1) reg (encodeDatetime dt) = .ok (.datetime (astimezoneUTC dt), 0) := by
  cases hdt : dt.utcOffsetMinutes with
  | none =>
    obtain ⟨y, mo, da, hh, mi, se, us, tz⟩ := dt
    simp only at hdt
    subst hdt
    have hz : endsWithZ (isoBodyChars ⟨y, mo, da, hh, mi, se, us, Option.none⟩) = false :=
      endsWithZ_isoBody _
    have hp : parseIso (isoBodyChars ⟨y, mo, da, hh, mi, se, us, Option.none⟩)
        = Option.some ⟨y, mo, da, hh, mi, se, us, Option.none⟩ := by
      have := parseIso_isoBody ⟨y, mo, da, hh, mi, se, us, Option.none⟩ [] (Or.inl rfl)
      rw [List.append_nil] at this
      simpa using this
    simp [encodeDatetime, deserF, isTag, lookupKV, isoChars, decodeDatetime, hz, hp,
      truthy, map_ok_eq, astimezoneUTC]
  | some o =>
    have hoff := astimezoneUTC_offset dt o hdt
    have hsafe := isoBodyChars_safe (astimezoneUTC dt)
    have hrepl : replacePlus0000 (isoChars (astimezoneUTC dt))
        = isoBodyChars (astimezoneUTC dt) ++ ['Z'] := by
      rw [show isoChars (astimezoneUTC dt)
            = isoBodyChars (astimezoneUTC dt) ++ ['+', '0', '0', ':', '0', '0'] by
          simp [isoChars, hoff, isoOffsetChars_zero],
        replacePlus0000_append _ _ (fun c hc => (hsafe c hc).1)]
      rfl
    have hz : endsWithZ (isoBodyChars (astimezoneUTC dt) ++ ['Z']) = true :=
      endsWithZ_concat_z _
    have hzrep : replaceZ (isoBodyChars (astimezoneUTC dt) ++ ['Z'])
        = isoBodyChars (astimezoneUTC dt) ++ ['+', '0', '0', ':', '0', '0'] := by
      rw [replaceZ_append _ _ (fun c hc => (hsafe c hc).2)]
      rfl
    have hp : parseIso (isoBodyChars (astimezoneUTC dt) ++ ['+', '0', '0', ':', '0', '0'])
        = Option.some (astimezoneUTC dt) := by
      rw [parseIso_isoBody (astimezoneUTC dt) _ (Or.inr rfl)]
      simp only [List.isEmpty_cons, Bool.false_eq_true, if_false]
      exact congrArg Option.some (pyDateTime_eta_utc _ hoff)
    simp [encodeDatetime, hdt, deserF, isTag, lookupKV, decodeDatetime,
      hrepl, hz, hzrep, hp, truthy, map_ok_eq]

/-- `astimezone` leaves a naive datetime unchanged (the encoder never calls
it on one). -/
theorem astimezoneUTC_naive (dt : PyDateTime) (h : dt.utcOffsetMinutes = Option.none) :
    astimezoneUTC dt = dt := by
  simp [astimezoneUTC, h]

/-- The encoder's `replace("+00:00", "Z")` turns the UTC ISO rendering into
the `Z`-suffixed form. -/
theorem replacePlus_isoChars_utc (dt : PyDateTime) (o : Int)
    (h : dt.utcOffsetMinutes = Option.some o) :
    replacePlus0000 (isoChars (astimezoneUTC dt))
      = isoBodyChars (astimezoneUTC dt) ++ ['Z'] := by
  have hoff := astimezoneUTC_offset dt o h
  have hsafe := isoBodyChars_safe (astimezoneUTC dt)
  rw [show isoChars (astimezoneUTC dt)
        = isoBodyChars (astimezoneUTC dt) ++ ['+', '0', '0', ':', '0', '0'] by
      simp [isoChars, hoff, isoOffsetChars_zero],
    replacePlus0000_append _ _ (fun c hc => (hsafe c hc).1)]
  rfl

/-- Decoding an encoded datetime through the wrapper. -/
theorem deserialize_encodeDatetime (reg : Registry) (dt : PyDateTime) :
    deserialize reg (encodeDatetime dt) = .ok (.datetime (astimezoneUTC dt), 0) := by
  obtain ⟨kvs, hkvs⟩ : ∃ kvs, encodeDatetime dt = .dict kvs := by
    cases h : dt.utcOffsetMinutes <;> simp [encodeDatetime, h]
  rw [show deserialize reg (encodeDatetime dt)
      = deserF (pySize (encodeDatetime dt)) reg (encodeDatetime dt) from rfl]
  rw [show pySize (encodeDatetime dt) = pySizeKVs kvs + 1 by rw [hkvs]; rfl]
  exact deserF_encodeDatetime _ reg dt

/-- C9: a naive timestamp encodes as the tagged datetime form carrying the
microsecond-precision ISO body and `naive: true` and decodes back to the
same naive timestamp; an aware timestamp is converted to UTC, rendered with
a trailing `Z` (not `+00:00`), tagged `naive: false`, and decodes to an
equal UTC-aware timestamp. -/
theorem C9_timestamp_encoding (reg : Registry) (dt : PyDateTime) :
    (dt.utcOffsetMinutes = Option.none →
      serialize (.datetime dt)
          = .dict [("__type__", .str "__datetime__"),
                   ("data", .str (String.mk (isoBodyChars dt))),
                   ("naive", .bool true)] ∧
      (dt.microsecond < 1000000 → (padChars 6 dt.microsecond).length = 6) ∧
      deserialize reg (serialize (.datetime dt)) = .ok (.datetime dt, 0)) ∧
    (∀ o, dt.utcOffsetMinutes = Option.some o →
      serialize (.datetime dt)
          = .dict [("__type__", .str "__datetime__"),
                   ("data", .str (String.mk (isoBodyChars (astimezoneUTC dt) ++ ['Z']))),
                   ("naive", .bool false)] ∧
      (isoBodyChars (astimezoneUTC dt) ++ ['Z']).getLast? = Option.some 'Z' ∧
      ¬ ['+', '0', '0', ':', '0', '0'] <:+ (isoBodyChars (astimezoneUTC dt) ++ ['Z']) ∧
      deserialize reg (serialize (.datetime dt)) = .ok (.datetime (astimezoneUTC dt), 0) ∧
      dtEq (astimezoneUTC dt) dt) := by
  constructor
  · intro h
    refine ⟨by simp [serialize, encodeDatetime, h, isoChars], ?_, ?_⟩
    · intro hus
      have hlen : (natChars dt.microsecond).length ≤ 6 := by
        by_cases h0 : dt.microsecond = 0
        · simp [natChars, h0]
        · simp only [natChars, h0, if_false, List.length_map, List.length_reverse]
          rw [Nat.digits_len 10 _ (by norm_num) h0]
          have : Nat.log 10 dt.microsecond < 6 :=
            Nat.log_lt_of_lt_pow h0 (lt_of_lt_of_le hus (by norm_num))
          omega
      simp [padChars, hlen]
    · rw [show serialize (.datetime dt) = encodeDatetime dt from rfl,
        deserialize_encodeDatetime, astimezoneUTC_naive dt h]
  · intro o h
    refine ⟨?_, List.getLast?_concat _, ?_, ?_, ?_⟩
    · simp only [serialize, encodeDatetime, h]
      rw [replacePlus_isoChars_utc dt o h]
    · intro hsuf
      obtain ⟨t, ht⟩ := hsuf
      have : (isoBodyChars (astimezoneUTC dt) ++ ['Z']).getLast?
          = (['+', '0', '0', ':', '0', '0'] : List Char).getLast? := by
        rw [← ht, List.getLast?_append_of_ne_nil t (by simp)]
      rw [List.getLast?_concat] at this
      simp at this
    · rw [show serialize (.datetime dt) = encodeDatetime dt from rfl,
        deserialize_encodeDatetime]
    · have hoff := astimezoneUTC_offset dt o h
      simp only [dtEq, hoff, h]
      exact astimezoneUTC_idem dt o h

/-- Witness for C9 at the spec's example timestamps
`2024-01-01T00:00:00.000000` (naive and UTC-aware). -/
theorem C9_timestamp_encoding_witness :
    serialize (.datetime ⟨2024, 1, 1, 0, 0, 0, 0, Option.none⟩)
        = .dict [("__type__", .str "__datetime__"),
                 ("data", .str (String.mk (isoBodyChars ⟨2024, 1, 1, 0, 0, 0, 0, Option.none⟩))),
                 ("naive", .bool true)] ∧
    deserialize [] (serialize (.datetime ⟨2024, 1, 1, 0, 0, 0, 0, Option.none⟩))
        = .ok (.datetime ⟨2024, 1, 1, 0, 0, 0, 0, Option.none⟩, 0) ∧
    deserialize [] (serialize (.datetime ⟨2024, 1, 1, 0, 0, 0, 0, Option.some 0⟩))
        = .ok (.datetime (astimezoneUTC ⟨2024, 1, 1, 0, 0, 0, 0, Option.some 0⟩), 0) ∧
    dtEq (astimezoneUTC ⟨2024, 1, 1, 0, 0, 0, 0, Option.some 0⟩)
      ⟨2024, 1, 1, 0, 0, 0, 0, Option.some 0⟩ :=
  ⟨((C9_timestamp_encoding [] ⟨2024, 1, 1, 0, 0, 0, 0, Option.none⟩).1 rfl).1,
   ((C9_timestamp_encoding [] ⟨2024, 1, 1, 0, 0, 0, 0, Option.none⟩).1 rfl).2.2,
   ((C9_timestamp_encoding [] ⟨2024, 1, 1, 0, 0, 0, 0, Option.some 0⟩).2 0 rfl).2.2.2.1,
   ((C9_timestamp_encoding [] ⟨2024, 1, 1, 0, 0, 0, 0, Option.some 0⟩).2 0 rfl).2.2.2.2⟩

/-! ## Array round-trip: `np.array(arr.tolist()).reshape(arr.shape)` -/

/-- The shape `np.array` infers from `ndToList` output (equals the original
shape except below a zero-sized dimension, where only `[0]` survives —
irrelevant, since `reshape` uses the recorded shape). -/
def inferredShape : List Nat → List Nat
  | [] => []
  | n :: rest => n :: (if n = 0 then [] else inferredShape rest)

/-- Row-collection for the chunked rendering of a flat array. -/
theorem inferNdRows_chunks (q : Nat) (rest : List Nat)
    (hrec : ∀ g : List Int, g.length = q → inferNd (ndToList rest g)
      = Option.some (inferredShape rest, g)) :
    ∀ (n : Nat) (f : List Int), f.length = n * q →
      inferNdRows ((List.range n).map fun i => ndToList rest ((f.drop (i * q)).take q))
        = Option.some ((if n = 0 then [] else inferredShape rest), f) := by
  intro n
  induction n with
  | zero =>
    intro f hf
    simp at hf
    simp [inferNdRows, hf]
  | succ n ih =>
    intro f hf
    have hq1 : q ≤ f.length := by
      rw [hf, Nat.succ_mul]
      omega
    have hrow0 : inferNd (ndToList rest (f.take q)) = Option.some (inferredShape rest, f.take q) :=
      hrec (f.take q) (by simp [hq1])
    have hshift : ∀ i : Nat, (f.drop ((i + 1) * q)).take q
        = ((f.drop q).drop (i * q)).take q := by
      intro i
      rw [List.drop_drop]
      congr 1
      ring_nf
    have htail := ih (f.drop q) (by simp [hf, Nat.succ_mul])
    rw [List.range_succ_eq_map, List.map_cons, List.map_map]
    have hmap : ((List.range n).map ((fun i => ndToList rest ((f.drop (i * q)).take q)) ∘ (· + 1)))
        = (List.range n).map fun i => ndToList rest (((f.drop q).drop (i * q)).take q) := by
      apply List.map_congr_left
      intro i _
      simp only [Function.comp_apply]
      rw [hshift i]
    rw [show (0 : Nat) * q = 0 by ring, List.drop_zero, hmap]
    simp only [inferNdRows, hrow0, htail]
    by_cases hn : n = 0
    · subst hn
      simp [List.take_append_drop]
    · have hne : ¬((List.range n).map fun i =>
          ndToList rest (((f.drop q).drop (i * q)).take q)).isEmpty = true := by
        simp [List.isEmpty_iff, List.range_eq_nil, hn]
      simp only [hn, if_false]
      simp [List.isEmpty_iff, List.range_eq_nil, hn, List.take_append_drop]

/-- `np.array` recovers the flat data of `tolist` output whenever the data
really has the recorded size. -/
theorem inferNd_ndToList (s : List Nat) :
    ∀ f : List Int, f.length = s.prod →
      inferNd (ndToList s f) = Option.some (inferredShape s, f) := by
  induction s with
  | nil =>
    intro f hf
    simp at hf
    obtain ⟨x, rfl⟩ := List.length_eq_one.1 hf
    simp [ndToList, inferNd, inferredShape]
  | cons n rest ih =>
    intro f hf
    have hrows := inferNdRows_chunks rest.prod rest (fun g hg => ih g hg) n f
      (by rw [hf]; simp [List.prod_cons])
    simp only [ndToList, inferNd, hrows]
    simp [inferredShape]

/-- `tuple(obj["shape"])` recovers the encoded shape. -/
theorem natsOf_map_int (s : List Nat) :
    natsOf (s.map fun n => PyVal.int (Nat.cast n)) = Option.some s := by
  induction s with
  | nil => rfl
  | cons n rest ih =>
    simp only [List.map_cons, natsOf]
    rw [if_pos (Int.natCast_nonneg n), ih]
    simp

/-- Decoding an encoded dense array recovers it exactly (one step of fuel;
the decoder never recurses into the array data). -/
theorem deserF_encodeNdarray (n : Nat) (reg : Registry) (a : NDArray)
    (hlen : a.flat.length = a.shape.prod) (hdt : validDtype a.dtype = true) :
    deserF (n + 1) reg (encodeNdarray a) = .ok (.ndarray a, 0) := by
  have hinf := inferNd_ndToList a.shape a.flat hlen
  have hnats := natsOf_map_int a.shape
  simp [encodeNdarray, deserF, isTag, lookupKV, decodeNdarray, hdt, hinf,
    Int.ofNat_eq_natCast, hnats, hlen, map_ok_eq]

/-- `astimezone(timezone.utc)` normalizes a datetime to one that compares
equal to it. -/
theorem dtEq_astimezoneUTC (dt : PyDateTime) : dtEq (astimezoneUTC dt) dt := by
  cases h : dt.utcOffsetMinutes with
  | none =>
    rw [astimezoneUTC_naive dt h]
    simp [dtEq, h]
  | some o =>
    have hoff := astimezoneUTC_offset dt o h
    simp only [dtEq, hoff, h]
    exact astimezoneUTC_idem dt o h

/-- Serialization preserves dict lookups valuewise. -/
theorem lookupKV_serializeKVs (k : String) (kvs : List (String × PyVal)) :
    lookupKV k (serializeKVs kvs) = (lookupKV k kvs).map serialize := by
  induction kvs with
  | nil => rfl
  | cons p r ih =>
    obtain ⟨k', v⟩ := p
    by_cases hk : k' = k <;> simp [serializeKVs, lookupKV, hk, ih]

/-- The membership test neither raises nor resolves on the encoding of a
`tagValueSafe` value over the empty registry: a safe tag encodes to a
falsy or hashable value, and no name is registered. -/
theorem regTagTest_serialize_safe (v0 : PyVal) (h : tagValueSafe v0 = true) :
    regTagTest (Option.some (serialize v0)) [] = .ok Option.none := by
  cases v0 with
  | str s => by_cases hs : s = "" <;> simp [serialize, regTagTest, truthy, hashable, hs, lookupReg]
  | none => simp [serialize, regTagTest, truthy]
  | bool b => simp [serialize, regTagTest, truthy, hashable]
  | int n => simp [serialize, regTagTest, truthy, hashable]
  | float bits => simp [serialize, regTagTest, truthy, hashable]
  | list xs =>
    have hx : xs = [] := by simpa [tagValueSafe, List.isEmpty_iff] using h
    subst hx
    simp [serialize, serializeList, regTagTest, truthy]
  | tuple xs =>
    have hx : xs = [] := by simpa [tagValueSafe, List.isEmpty_iff] using h
    subst hx
    simp [serialize, serializeList, regTagTest, truthy]
  | dict kvs =>
    have hx : kvs = [] := by simpa [tagValueSafe, List.isEmpty_iff] using h
    subst hx
    simp [serialize, serializeKVs, regTagTest, truthy]
  | set xs => simp [tagValueSafe] at h
  | datetime dt => simp [tagValueSafe] at h
  | ndarray a => simp [tagValueSafe] at h

/-- `encodeDatetime` always produces a tagged mapping. -/
theorem encodeDatetime_isDict (dt : PyDateTime) : ∃ kvs, encodeDatetime dt = .dict kvs := by
  cases h : dt.utcOffsetMinutes <;> simp [encodeDatetime, h]

/-- The encoding of a safe `__type__` value is never one of the reserved
tag strings (only strings encode to strings, and they encode to
themselves). -/
theorem isTag_serialize_false (v0 : PyVal) (h : tagValueSafe v0 = true) :
    isTag (Option.some (serialize v0)) "__set__" = false ∧
    isTag (Option.some (serialize v0)) "__datetime__" = false ∧
    isTag (Option.some (serialize v0)) "__ndarray__" = false := by
  cases v0 with
  | str s =>
    simp only [tagValueSafe, Bool.not_eq_eq_eq_not, Bool.not_true, Bool.or_eq_false_iff] at h
    simp [serialize, isTag, h.1.1, h.1.2, h.2]
  | datetime dt =>
    obtain ⟨kvs, hkvs⟩ := encodeDatetime_isDict dt
    simp [serialize, hkvs, isTag]
  | _ => simp [serialize, isTag, encodeNdarray]

/-- A decoded value standing in for a primitive or timestamp set member is
hashable. -/
theorem valEq_hashable {a b : PyVal} (h : ValEq a b) (hb : isSetSafeMember b = true) :
    hashable a = true := by
  cases h <;> simp_all [isSetSafeMember, hashable]

/-- Pointwise version of `valEq_hashable`. -/
theorem valEqList_hashable {ys : List PyVal} : ∀ {xs : List PyVal}, ValEqList ys xs →
    (∀ x ∈ xs, isSetSafeMember x = true) → hashableList ys = true := by
  induction ys with
  | nil => intro xs _ _; rfl
  | cons y t ih =>
    intro xs h hx
    cases h with
    | cons h1 h2 =>
      rename_i x r
      simp only [hashableList, Bool.and_eq_true]
      exact ⟨valEq_hashable h1 (hx x (List.mem_cons_self x r)),
        ih h2 (fun z hz => hx z (List.mem_cons_of_mem x hz))⟩

/-- Every value has positive size. -/
theorem pySize_pos (v : PyVal) : 1 ≤ pySize v := by
  cases v <;> simp [pySize]

/-- Decoding an empty list succeeds at any fuel. -/
theorem deserLF_nil (fuel : Nat) (reg : Registry) : deserLF fuel reg [] = .ok ([], 0) := by
  cases fuel <;> rfl

/-- Decoding an empty mapping body succeeds at any fuel. -/
theorem deserKVF_nil (fuel : Nat) (reg : Registry) : deserKVF fuel reg [] = .ok ([], 0) := by
  cases fuel <;> rfl

/-- Joint soundness of the fuel-indexed decoder on encoder output over the
empty registry: a well-formed value, its sequence bodies, and its mapping
bodies all decode successfully to values equal (as `ValEq`) to the
originals, for any sufficient fuel. -/
theorem roundtrip_main : ∀ fuel : Nat,
    (∀ v, WFVal v → pySize (serialize v) ≤ fuel →
      ∃ v' w, deserF fuel [] (serialize v) = .ok (v', w) ∧ ValEq v' v) ∧
    (∀ xs : List PyVal, (∀ x ∈ xs, WFVal x) → pySizeList (serializeList xs) ≤ fuel →
      ∃ ys w, deserLF fuel [] (serializeList xs) = .ok (ys, w) ∧ ValEqList ys xs) ∧
    (∀ kvs : List (String × PyVal), (∀ p ∈ kvs, WFVal (Prod.snd p)) →
      pySizeKVs (serializeKVs kvs) ≤ fuel →
      ∃ r w, deserKVF fuel [] (serializeKVs kvs) = .ok (r, w) ∧ ValEqKVs r kvs) := by
  intro fuel
  induction fuel using Nat.strong_induction_on with
  | _ fuel ih =>
  refine ⟨?_, ?_, ?_⟩
  · intro v hv hsz
    cases fuel with
    | zero =>
      have := pySize_pos (serialize v)
      omega
    | succ n =>
      obtain ⟨ih1, ih2, ih3⟩ := ih n (Nat.lt_succ_self n)
      cases hv with
      | none => exact ⟨.none, 0, rfl, ValEq.none⟩
      | bool b => exact ⟨.bool b, 0, rfl, ValEq.bool b⟩
      | int m => exact ⟨.int m, 0, rfl, ValEq.int m⟩
      | float bits hb => exact ⟨.float bits, 0, rfl, ValEq.float bits hb⟩
      | str s => exact ⟨.str s, 0, rfl, ValEq.str s⟩
      | datetime dt =>
        exact ⟨.datetime (astimezoneUTC dt), 0, deserF_encodeDatetime n [] dt,
          ValEq.datetime (dtEq_astimezoneUTC dt)⟩
      | ndarray hlen hdt hrange =>
        exact ⟨.ndarray _, 0, deserF_encodeNdarray n [] _ hlen hdt, ValEq.ndarray _⟩
      | list hxs =>
        rename_i xs
        have hsz' : pySizeList (serializeList xs) ≤ n := by
          simp only [serialize, pySize] at hsz
          omega
        obtain ⟨ys, w, heq, hrel⟩ := ih2 xs hxs hsz'
        refine ⟨.list ys, w, ?_, ValEq.list_list hrel⟩
        simp [serialize, deserF, heq, ok_bind_eq]
      | tuple hxs =>
        rename_i xs
        have hsz' : pySizeList (serializeList xs) ≤ n := by
          simp only [serialize, pySize] at hsz
          omega
        obtain ⟨ys, w, heq, hrel⟩ := ih2 xs hxs hsz'
        refine ⟨.list ys, w, ?_, ValEq.list_tuple hrel⟩
        simp [serialize, deserF, heq, ok_bind_eq]
      | dict hkv htag =>
        rename_i kvs
        have hsz' : pySizeKVs (serializeKVs kvs) ≤ n := by
          simp only [serialize, pySize] at hsz
          omega
        obtain ⟨r, w, heq, hrel⟩ := ih3 kvs hkv hsz'
        refine ⟨.dict r, (if valid_serialized_object (serializeKVs kvs) then 1 else 0) + w,
          ?_, ValEq.dict hrel⟩
        simp only [serialize, deserF]
        rw [lookupKV_serializeKVs]
        cases hlk : lookupKV "__type__" kvs with
        | none =>
          simp [isTag, regTagTest, heq, ok_bind_eq]
        | some v0 =>
          have htags := isTag_serialize_false v0 (htag v0 hlk)
          have hrt := regTagTest_serialize_safe v0 (htag v0 hlk)
          simp [htags.1, htags.2.1, htags.2.2, hrt, heq, ok_bind_eq]
      | set hxs hsafe =>
        rename_i xs
        have hsz' : pySizeList (serializeList xs) ≤ n := by
          simp only [serialize, pySize, pySizeKVs, pySizeList] at hsz
          omega
        obtain ⟨ys, w, heq, hrel⟩ := ih2 xs hxs hsz'
        have hh : hashableList ys = true := valEqList_hashable hrel hsafe
        refine ⟨.set ys, w, ?_, ValEq.set xs (List.Perm.refl xs) hrel⟩
        simp [serialize, deserF, isTag, lookupKV, heq, hh, ok_bind_eq]
  · intro xs hxs hsz
    cases xs with
    | nil => exact ⟨[], 0, deserLF_nil fuel [], ValEqList.nil⟩
    | cons x t =>
      cases fuel with
      | zero =>
        have := pySize_pos (serialize x)
        simp only [serializeList, pySizeList] at hsz
        omega
      | succ n =>
        obtain ⟨ih1, ih2, _⟩ := ih n (Nat.lt_succ_self n)
        have h1 : pySize (serialize x) ≤ n := by
          simp only [serializeList, pySizeList] at hsz
          omega
        have h2 : pySizeList (serializeList t) ≤ n := by
          simp only [serializeList, pySizeList] at hsz
          omega
        obtain ⟨y, w, he1, hr1⟩ := ih1 x (hxs x (List.mem_cons_self x t)) h1
        obtain ⟨ys, w', he2, hr2⟩ := ih2 t (fun z hz => hxs z (List.mem_cons_of_mem x hz)) h2
        exact ⟨y :: ys, w + w', by simp [serializeList, deserLF, he1, he2, ok_bind_eq],
          ValEqList.cons hr1 hr2⟩
  · intro kvs hkv hsz
    cases kvs with
    | nil => exact ⟨[], 0, deserKVF_nil fuel [], ValEqKVs.nil⟩
    | cons p t =>
      obtain ⟨k, v⟩ := p
      cases fuel with
      | zero =>
        have := pySize_pos (serialize v)
        simp only [serializeKVs, pySizeKVs] at hsz
        omega
      | succ n =>
        obtain ⟨ih1, _, ih3⟩ := ih n (Nat.lt_succ_self n)
        have h1 : pySize (serialize v) ≤ n := by
          simp only [serializeKVs, pySizeKVs] at hsz
          omega
        have h2 : pySizeKVs (serializeKVs t) ≤ n := by
          simp only [serializeKVs, pySizeKVs] at hsz
          omega
        obtain ⟨v', w, he1, hr1⟩ := ih1 v (hkv (k, v) (List.mem_cons_self _ t)) h1
        obtain ⟨r, w', he2, hr2⟩ := ih3 t (fun q hq => hkv q (List.mem_cons_of_mem _ hq)) h2
        exact ⟨(k, v') :: r, w + w',
          by simp [serializeKVs, deserKVF, he1, he2, ok_bind_eq],
          ValEqKVs.cons k hr1 hr2⟩

/-! ## Claim C1: the round trip -/

/-- C1 counterexample: the round trip fails on supported values.  (1) A
plain dict that happens to bind `__type__` to `"__set__"` is mistaken for a
tagged set node and decodes to a set, not to the dict.  (2) A set
containing a tuple encodes its member as a list, and rebuilding the set
raises `TypeError: unhashable type`.  (3) A dict binding `__type__` to a
non-empty list makes the decoder's truthy registry-membership test hash an
unhashable value, raising `TypeError`.  (4) A NaN float passes through
unchanged but `NaN == NaN` is false, so the result is not value-equal to
the input. -/
theorem C1_roundtrip_counterexample :
    (SupportedVal (.dict [("__type__", .str "__set__"), ("data", .list [])]) ∧
      deserialize [] (serialize (.dict [("__type__", .str "__set__"), ("data", .list [])]))
        = .ok (.set [], 0) ∧
      ¬ ValEq (.set []) (.dict [("__type__", .str "__set__"), ("data", .list [])])) ∧
    (SupportedVal (.set [.tuple [.int 1]]) ∧
      deserialize [] (serialize (.set [.tuple [.int 1]]))
        = .error "TypeError: unhashable type") ∧
    (SupportedVal (.dict [("__type__", .list [.int 1])]) ∧
      deserialize [] (serialize (.dict [("__type__", .list [.int 1])]))
        = .error "TypeError: unhashable type") ∧
    (SupportedVal (.float 9221120237041090560) ∧
      deserialize [] (serialize (.float 9221120237041090560))
        = .ok (.float 9221120237041090560, 0) ∧
      ¬ ValEq (.float 9221120237041090560) (.float 9221120237041090560)) := by
  refine ⟨⟨?_, rfl, ?_⟩, ⟨?_, rfl⟩, ⟨?_, rfl⟩, SupportedVal.float _, rfl, ?_⟩
  · refine SupportedVal.dict ?_
    intro p hp
    simp only [List.mem_cons, List.not_mem_nil, or_false] at hp
    rcases hp with rfl | rfl
    · exact SupportedVal.str "__set__"
    · exact SupportedVal.list (by intro x hx; simp at hx)
  · intro h
    cases h
  · refine SupportedVal.set ?_ ?_
    · intro x hx
      simp only [List.mem_singleton] at hx
      subst hx
      exact SupportedVal.tuple (by
        intro y hy
        simp only [List.mem_singleton] at hy
        subst hy
        exact SupportedVal.int 1)
    · intro x hx
      simp only [List.mem_singleton] at hx
      subst hx
      rfl
  · refine SupportedVal.dict ?_
    intro p hp
    simp only [List.mem_singleton] at hp
    subst hp
    exact SupportedVal.list (by
      intro y hy
      simp only [List.mem_singleton] at hy
      subst hy
      exact SupportedVal.int 1)
  · intro h
    cases h with
    | float _ hb => exact absurd hb (by decide)

/-- C1 (amended): over the empty registry, `deserialize ∘ serialize` is
value-preserving on every supported value in which no dict binds
`__type__` either to a reserved tag string or to a value that encodes to
something truthy and unhashable (a non-empty sequence or mapping, a set, a
timestamp, or an array — the registry membership test would raise
`TypeError` on those), every set member is a primitive or timestamp, and
no float is NaN.  Timestamps come back normalized (aware ones in UTC),
tuples come back as lists, set order is not distinguished, and at most
warnings — never errors — are emitted.  (Scope of the model, stated
explicitly: floats are opaque IEEE-754 bit patterns the codec passes
through; dense arrays carry integer dtypes with elements in the dtype's
range.) -/
theorem C1_roundtrip_amended (v : PyVal) (h : WFVal v) :
    ∃ v' w, deserialize [] (serialize v) = .ok (v', w) ∧ ValEq v' v :=
  (roundtrip_main (pySize (serialize v))).1 v h (Nat.le_refl _)

/-- A concrete well-formed value exercising every variant: nested list with
a tuple, a set, an aware timestamp, and a dense array. -/
def roundtripSample : PyVal :=
  .dict [("a", .list [.int 1, .tuple [.str "x"]]),
         ("b", .set [.int 2, .str "y"]),
         ("t", .datetime ⟨2024, 1, 1, 12, 30, 5, 999999, Option.some 60⟩),
         ("f", .float 4611686018427387904),
         ("arr", .ndarray ⟨[2, 2], "uint8", [1, 2, 3, 4]⟩)]

/-- Witness for the amended C1 at `roundtripSample`. -/
theorem C1_roundtrip_amended_witness :
    ∃ v' w, deserialize [] (serialize roundtripSample) = .ok (v', w) ∧ ValEq v' roundtripSample := by
  refine C1_roundtrip_amended roundtripSample ?_
  refine WFVal.dict ?_ ?_
  · intro p hp
    simp only [roundtripSample, List.mem_cons, List.not_mem_nil, or_false] at hp
    rcases hp with rfl | rfl | rfl | rfl | rfl
    · refine WFVal.list ?_
      intro x hx
      simp only [List.mem_cons, List.not_mem_nil, or_false] at hx
      rcases hx with rfl | rfl
      · exact WFVal.int 1
      · exact WFVal.tuple (by
          intro y hy
          simp only [List.mem_singleton] at hy
          subst hy
          exact WFVal.str "x")
    · refine WFVal.set ?_ ?_
      · intro x hx
        simp only [List.mem_cons, List.not_mem_nil, or_false] at hx
        rcases hx with rfl | rfl
        · exact WFVal.int 2
        · exact WFVal.str "y"
      · intro x hx
        simp only [List.mem_cons, List.not_mem_nil, or_false] at hx
        rcases hx with rfl | rfl <;> rfl
    · exact WFVal.datetime _
    · exact WFVal.float _ (by decide)
    · refine WFVal.ndarray (by decide) (by decide) ?_
      intro x hx
      simp only [List.mem_cons, List.not_mem_nil, or_false] at hx
      rcases hx with rfl | rfl | rfl | rfl <;> exact ⟨by decide, by decide⟩
  · intro v0 hv0
    simp [roundtripSample, lookupKV] at hv0

/-! ## The `Packable` manifest pack/unpack protocol

A `Packable` instance is modelled by its four manifests together with the
current values of the fields they name (manifest order is list order;
the spec's invariant that a name appears in at most one manifest is implied
by construction).  `pack` is total here: its failure modes (missing
attributes, non-Packable values) are excluded by typing.  `unpack` returns
the mutated object (mutations before a failure persist), the number of
`log.error` calls, and whether an exception escaped uncaught. -/

/-- A Packable object: plain JSON-native fields, nested Packable fields,
list-of-Packable fields (with the per-field prototype from
`list_manifest`), and map-of-Packable fields (with the prototype from
`dict_manifest`). -/
inductive PObj where
  | mk (plain : List (String × PyVal))
       (objs : List (String × PObj))
       (lists : List (String × List PObj × PObj))
       (dicts : List (String × List (String × PObj) × PObj))

mutual

/-- `Packable.pack`: build the JSON dictionary, inserting plain fields,
then nested objects, then lists, then maps (Python dict insertion order). -/
def PObj.pack : PObj → PyVal
  | .mk plain objs lists dicts =>
    .dict (plain ++ packObjs objs ++ packLists lists ++ packDicts dicts)

/-- Pack the nested-object manifest. -/
def packObjs : List (String × PObj) → List (String × PyVal)
  | [] => []
  | (k, o) :: r => (k, o.pack) :: packObjs r

/-- Pack the list manifest. -/
def packLists : List (String × List PObj × PObj) → List (String × PyVal)
  | [] => []
  | (k, cur, _) :: r => (k, .list (packList cur)) :: packLists r

/-- Pack the elements of one list field. -/
def packList : List PObj → List PyVal
  | [] => []
  | o :: r => o.pack :: packList r

/-- Pack the dict manifest. -/
def packDicts : List (String × List (String × PObj) × PObj) → List (String × PyVal)
  | [] => []
  | (k, cur, _) :: r => (k, .dict (packObjsKV cur)) :: packDicts r

/-- Pack the values of one map field (keys preserved). -/
def packObjsKV : List (String × PObj) → List (String × PyVal)
  | [] => []
  | (k, o) :: r => (k, o.pack) :: packObjsKV r

end

/-- `data[k]` on the unpack input: `KeyError` when the key is missing,
`TypeError` when `data` is not a mapping. -/
def pyGetItem (data : PyVal) (k : String) : Except String PyVal :=
  match data with
  | .dict kvs =>
    match lookupKV k kvs with
    | Option.some v => .ok v
    | Option.none => .error "KeyError"
  | _ => .error "TypeError: object is not subscriptable"

/-- `copy.deepcopy` as `serializer.py` evaluates it: the module never
imports `copy`, so the name lookup raises `NameError` before any copy is
made.  The surrounding `try` blocks catch it as a generic `Exception`. -/
def deepcopyPackable (_proto : PObj) : Except String PObj :=
  .error "NameError: name copy is not defined"

/-- Outcome of one manifest-processing stage of `unpack`. -/
inductive PStat where
  | ok
  | ret
  | exn
  deriving DecidableEq, Repr

mutual

/-- `Packable.unpack`.  Returns the mutated object, the number of
`log.error` calls, and whether an exception escaped `unpack` uncaught
(possible only in the list/dict stages, whose `data[mi]` subscript is
outside the `try`). -/
def PObj.unpack : PObj → PyVal → PObj × Nat × Bool
  | .mk plain objs lists dicts, data =>
    match unpackPlain plain data with
    | (plain2, e1, abort1) =>
      if abort1 then (.mk plain2 objs lists dicts, e1, false)
      else
        match unpackObjs objs data with
        | (objs2, e2, abort2) =>
          if abort2 then (.mk plain2 objs2 lists dicts, e1 + e2, false)
          else
            match unpackLists lists data with
            | (lists2, e3, st3) =>
              if st3 = PStat.ret then (.mk plain2 objs2 lists2 dicts, e1 + e2 + e3, false)
              else if st3 = PStat.exn then (.mk plain2 objs2 lists2 dicts, e1 + e2 + e3, true)
              else
                match unpackDicts dicts data with
                | (dicts2, e4, st4) =>
                  (.mk plain2 objs2 lists2 dicts2, e1 + e2 + e3 + e4, st4 = PStat.exn)

/-- The plain-field loop: assign `data[mi]` to each field in manifest
order; the first failure logs one error and aborts the whole call
(earlier assignments persist). -/
def unpackPlain : List (String × PyVal) → PyVal → List (String × PyVal) × Nat × Bool
  | [], _ => ([], 0, false)
  | (k, v) :: r, data =>
    match pyGetItem data k with
    | .ok newV =>
      match unpackPlain r data with
      | (r2, e, ab) => ((k, newV) :: r2, e, ab)
    | .error _ => ((k, v) :: r, 1, true)

/-- The nested-object loop: `data[mi]` failures are caught (log, abort);
the recursive `unpack` mutates the child in place, and an exception
escaping the child is caught here (log, abort) with the child's partial
mutations kept. -/
def unpackObjs : List (String × PObj) → PyVal → List (String × PObj) × Nat × Bool
  | [], _ => ([], 0, false)
  | (k, child) :: r, data =>
    match pyGetItem data k with
    | .error _ => ((k, child) :: r, 1, true)
    | .ok d =>
      match child.unpack d with
      | (child2, ce, raised) =>
        if raised then ((k, child2) :: r, ce + 1, true)
        else
          match unpackObjs r data with
          | (r2, e, ab) => ((k, child2) :: r2, ce + e, ab)

/-- The list loop: the `data[mi]` subscript is outside the `try`, so a
missing key (or non-list value) escapes as an exception; with a non-empty
source list the first iteration evaluates `copy.deepcopy`, whose
`NameError` is caught (log, return); an empty source list assigns `[]` and
continues. -/
def unpackLists : List (String × List PObj × PObj) → PyVal →
    List (String × List PObj × PObj) × Nat × PStat
  | [], _ => ([], 0, PStat.ok)
  | (k, cur, proto) :: r, data =>
    match pyGetItem data k with
    | .error _ => ((k, cur, proto) :: r, 0, PStat.exn)
    | .ok d =>
      match d with
      | .list [] =>
        match unpackLists r data with
        | (r2, e, st) => ((k, [], proto) :: r2, e, st)
      | .list (_ :: _) =>
        match deepcopyPackable proto with
        | .error _ => ((k, cur, proto) :: r, 1, PStat.ret)
        | .ok c => ((k, [c], proto) :: r, 0, PStat.ret)  -- unreachable: deepcopy always raises
      | _ => ((k, cur, proto) :: r, 0, PStat.exn)

/-- The map loop: `data[mi].keys()` is outside the `try`; per key the inner
`copy.deepcopy` raises `NameError`, caught by the inner handler (log,
return); an empty source map assigns an empty map and continues. -/
def unpackDicts : List (String × List (String × PObj) × PObj) → PyVal →
    List (String × List (String × PObj) × PObj) × Nat × PStat
  | [], _ => ([], 0, PStat.ok)
  | (k, cur, proto) :: r, data =>
    match pyGetItem data k with
    | .error _ => ((k, cur, proto) :: r, 0, PStat.exn)
    | .ok d =>
      match d with
      | .dict [] =>
        match unpackDicts r data with
        | (r2, e, st) => ((k, [], proto) :: r2, e, st)
      | .dict (_ :: _) =>
        match deepcopyPackable proto with
        | .error _ => ((k, cur, proto) :: r, 1, PStat.ret)
        | .ok _ => ((k, [], proto) :: r, 0, PStat.ret)  -- unreachable: deepcopy always raises
      | _ => ((k, cur, proto) :: r, 0, PStat.exn)

end

/-! ## Claims C2 and C8 -/

/-- The list-field prototype of the C2 scenario. -/
def packProtoE : PObj := .mk [("tag", .int 0)] [] [] []

/-- The map-field prototype of the C2 scenario. -/
def packProtoM : PObj := .mk [("val", .int 0)] [] [] []

/-- The packed source object of the C2 scenario: one plain field
`count = 3`, one nested-object field, one list field with two elements,
one map field with keys `x` and `y`. -/
def packSource : PObj :=
  .mk [("count", .int 3)]
      [("child", .mk [("depth", .int 7)] [] [] [])]
      [("items", [.mk [("tag", .int 1)] [] [] [], .mk [("tag", .int 2)] [] [] []], packProtoE)]
      [("mapping", [("x", .mk [("val", .int 10)] [] [] []),
                    ("y", .mk [("val", .int 20)] [] [] [])], packProtoM)]

/-- The fresh prototype instance the C2 scenario unpacks into. -/
def packProto : PObj :=
  .mk [("count", .int 0)]
      [("child", .mk [("depth", .int 0)] [] [] [])]
      [("items", [], packProtoE)]
      [("mapping", [], packProtoM)]

/-- C2 evaluated: `pack` does produce exactly the four expected keys with
correctly shaped values, but `unpack` on that mapping does **not**
reproduce the field values: when it reaches the list-of-objects field it
evaluates `copy.deepcopy`, the module has no `copy` import, the resulting
`NameError` is caught, one error is logged and `unpack` returns — the
plain and nested-object fields are updated, the list and map fields are
left at the prototype's empty values. -/
theorem C2_pack_ok_unpack_aborts_on_missing_copy_import :
    PObj.pack packSource
      = .dict [("count", .int 3),
               ("child", .dict [("depth", .int 7)]),
               ("items", .list [.dict [("tag", .int 1)], .dict [("tag", .int 2)]]),
               ("mapping", .dict [("x", .dict [("val", .int 10)]),
                                  ("y", .dict [("val", .int 20)])])] ∧
    PObj.unpack packProto (PObj.pack packSource)
      = (.mk [("count", .int 3)] [("child", .mk [("depth", .int 7)] [] [] [])]
           [("items", [], packProtoE)] [("mapping", [], packProtoM)], 1, false) ∧
    ([] : List PObj) ≠ [.mk [("tag", .int 1)] [] [] [], .mk [("tag", .int 2)] [] [] []] :=
  ⟨rfl, rfl, by simp⟩

/-- C8: if the third of four plain fields fails to assign (missing key),
the first two fields are mutated to their new values, one error is logged,
the fourth field is not attempted, the later manifests are untouched, and
no exception escapes. -/
theorem C8_unpack_partial_on_failure (a b c d : String) (va vb vc vd x y : PyVal)
    (objs : List (String × PObj)) (lists : List (String × List PObj × PObj))
    (dicts : List (String × List (String × PObj) × PObj))
    (kvs : List (String × PyVal))
    (ha : lookupKV a kvs = Option.some x) (hb : lookupKV b kvs = Option.some y)
    (hc : lookupKV c kvs = Option.none) :
    PObj.unpack (.mk [(a, va), (b, vb), (c, vc), (d, vd)] objs lists dicts) (.dict kvs)
      = (.mk [(a, x), (b, y), (c, vc), (d, vd)] objs lists dicts, 1, false) := by
  simp [PObj.unpack, unpackPlain, pyGetItem, ha, hb, hc]

/-- Witness for C8: four plain fields `p q r s`, data missing `r`. -/
theorem C8_unpack_partial_on_failure_witness :
    PObj.unpack (.mk [("p", .int 0), ("q", .int 0), ("r", .int 0), ("s", .int 0)] [] [] [])
        (.dict [("p", .int 1), ("q", .int 2), ("s", .int 4)])
      = (.mk [("p", .int 1), ("q", .int 2), ("r", .int 0), ("s", .int 0)] [] [] [], 1, false) :=
  C8_unpack_partial_on_failure "p" "q" "r" "s" (.int 0) (.int 0) (.int 0) (.int 0)
    (.int 1) (.int 2) [] [] []
    [("p", .int 1), ("q", .int 2), ("s", .int 4)] rfl rfl rfl
